import Mathlib

/-!
Shallow embedding of `src/actix-http/src/ws/dispatcher.rs` (the framed
request/response dispatcher `FramedDispatcher` and its types).

The dispatcher is an asynchronous state machine driven by an external
poll.  Its interactions with the outside world (service readiness,
decoded items from the framed transport, the result channel, encode
into the write buffer, flush) are modelled as *scripts*: lists of
results that the corresponding operation yields, consumed one element
per call.  An exhausted script behaves as `Pending` (for poll-style
operations) or as success (for `Framed::write`), which corresponds to
an environment that never again becomes ready.

The `Framed` transport itself (crate `actix-codec`) is not part of the
repository's sources.  Modelled from the spec: the dispatcher observes
only the write buffer's "full" and "empty" predicates and issues
encode/flush calls; we model the buffer as a count `buf` of buffered
responses with capacity `cap` (`full` iff `cap ≤ buf`, `empty` iff
`buf = 0`); a successful `write` adds one buffered response and a
successful `flush` drains the buffer completely.

The `Disp` record carries, besides the dispatcher state and the write
buffer model, ghost instrumentation that records observable history
and does not influence control flow: `admitted` (items handed to
`Service::call`, in order), `written` (responses successfully encoded
into the write buffer, in order), `flushes` (number of `flush` calls
issued), `writeRuns` (number of `poll_write` invocations).
-/

set_option autoImplicit false

deriving instance DecidableEq for Except

namespace ActixWs

/-- `Poll<T>` of the Rust standard library, as returned by the
asynchronous operations the dispatcher drives. -/
inductive PollR (α : Type) : Type where
  | ready : α → PollR α
  | pending : PollR α
deriving DecidableEq

/-- `InnerMessage<T>` from `dispatcher.rs`: the message type carried on
the dispatcher's mpsc result channel. -/
inductive InnerMessage (I : Type) : Type where
  | item : I → InnerMessage I
  | close : InnerMessage I
deriving DecidableEq

/-- `FramedDispatcherError<E, U, I>` from `dispatcher.rs`, with the
codec's two associated error types flattened into parameters `EncE`
(encoder) and `DecE` (decoder). -/
inductive FramedDispatcherError (E EncE DecE : Type) : Type where
  | service : E → FramedDispatcherError E EncE DecE
  | encoder : EncE → FramedDispatcherError E EncE DecE
  | decoder : DecE → FramedDispatcherError E EncE DecE
deriving DecidableEq

/-- `State<S, U, I>` from `dispatcher.rs`: the dispatcher's single
mutable control field. -/
inductive State (E EncE DecE : Type) : Type where
  | processing : State E EncE DecE
  | error : FramedDispatcherError E EncE DecE → State E EncE DecE
  | framedError : FramedDispatcherError E EncE DecE → State E EncE DecE
  | flushAndStop : State E EncE DecE
  | stopping : State E EncE DecE
deriving DecidableEq

/-- `State::take_error`: `mem::replace(self, State::Processing)` and
match; the Rust code panics when the replaced value is not the
`Error` variant, which we model as `none`.  On success it returns the
owned error together with the new value of the slot (`Processing`). -/
def State.take_error {E EncE DecE : Type} :
    State E EncE DecE →
      Option (FramedDispatcherError E EncE DecE × State E EncE DecE)
  | State.error err => some (err, State.processing)
  | _ => none

/-- `State::take_framed_error`: as `take_error`, but for the
`FramedError` variant. -/
def State.take_framed_error {E EncE DecE : Type} :
    State E EncE DecE →
      Option (FramedDispatcherError E EncE DecE × State E EncE DecE)
  | State.framedError err => some (err, State.processing)
  | _ => none

/-- The body of the per-request task spawned by `poll_read`:
`let item = fut.await; let _ = tx.send(item.map(InnerMessage::Item));`.
Given the service call's outcome, this is the value delivered to the
result channel. -/
def taskSend {I E : Type} (item : Except E I) : Except E (InnerMessage I) :=
  item.map InnerMessage.item

/-- Environment scripts: the results successive calls to the
dispatcher's external operations will yield.
`ready` feeds `Service::poll_ready`, `items` feeds
`Framed::next_item`, `rx` feeds `Receiver::poll_next` on the result
channel, `wr` feeds `Framed::write` (encode into the write buffer),
`fl` feeds `Framed::flush`. -/
structure Env (Req I E EncE DecE : Type) : Type where
  ready : List (PollR (Except E Unit))
  items : List (PollR (Option (Except DecE Req)))
  rx : List (PollR (Option (Except E (InnerMessage I))))
  wr : List (Except EncE Unit)
  fl : List (PollR (Except EncE Unit))

/-- The dispatcher's own mutable data: the control state, the modelled
write buffer (`buf` buffered responses, capacity `cap`), and ghost
instrumentation (`admitted`, `written`, `flushes`, `writeRuns`) that
records observable history without influencing control flow. -/
structure Disp (Req I E EncE DecE : Type) : Type where
  state : State E EncE DecE
  buf : Nat
  cap : Nat
  admitted : List Req
  written : List I
  flushes : Nat
  writeRuns : Nat

/-- `Framed::is_write_buf_full`, on the modelled buffer. -/
def Disp.isWriteBufFull {Req I E EncE DecE : Type}
    (d : Disp Req I E EncE DecE) : Bool :=
  decide (d.cap ≤ d.buf)

/-- `Framed::is_write_buf_empty`, on the modelled buffer. -/
def Disp.isWriteBufEmpty {Req I E EncE DecE : Type}
    (d : Disp Req I E EncE DecE) : Bool :=
  decide (d.buf = 0)

/-- Result of one invocation of `poll_read`: the updated dispatcher,
the remaining scripts, and the returned boolean (`true` iff the state
was changed). -/
structure ReadRes (Req I E EncE DecE : Type) : Type where
  d : Disp Req I E EncE DecE
  ready : List (PollR (Except E Unit))
  items : List (PollR (Option (Except DecE Req)))
  progress : Bool

/-- The loop of `FramedDispatcher::poll_read`.  Each iteration first
polls the service for readiness, then asks the framed transport for
the next decoded item; an available item is admitted (`Service::call`
plus `actix_rt::spawn` of the task sending the outcome to the result
channel) and the loop repeats.  Returns `true` exactly when the state
was changed (decode error, clean end of stream, readiness failure). -/
def poll_read_loop {Req I E EncE DecE : Type} :
    List (PollR (Except E Unit)) →
      List (PollR (Option (Except DecE Req))) →
      Disp Req I E EncE DecE → ReadRes Req I E EncE DecE
  | [], items, d => ⟨d, [], items, false⟩
  | PollR.pending :: rs, items, d => ⟨d, rs, items, false⟩
  | PollR.ready (Except.error e) :: rs, items, d =>
      ⟨{ d with state := State.error (FramedDispatcherError.service e) },
        rs, items, true⟩
  | PollR.ready (Except.ok _) :: rs, items, d =>
      match items with
      | [] => ⟨d, rs, [], false⟩
      | PollR.pending :: is => ⟨d, rs, is, false⟩
      | PollR.ready none :: is =>
          ⟨{ d with state := State.stopping }, rs, is, true⟩
      | PollR.ready (some (Except.error e)) :: is =>
          ⟨{ d with
              state := State.framedError (FramedDispatcherError.decoder e) },
            rs, is, true⟩
      | PollR.ready (some (Except.ok el)) :: is =>
          poll_read_loop rs is { d with admitted := d.admitted ++ [el] }

/-- `FramedDispatcher::poll_read`, packaged over the environment. -/
def poll_read {Req I E EncE DecE : Type} (d : Disp Req I E EncE DecE)
    (env : Env Req I E EncE DecE) :
    Disp Req I E EncE DecE × Env Req I E EncE DecE × Bool :=
  let r := poll_read_loop env.ready env.items d
  (r.d, { env with ready := r.ready, items := r.items }, r.progress)

/-- Kind of an observable event of the write stage: an outcome pulled
from the result channel, a response encoded into the write buffer, or
a flush call with its result. -/
inductive WK : Type where
  | pull : WK
  | wrote : WK
  | flushOk : WK
  | flushPending : WK
  | flushErr : WK
deriving DecidableEq

/-- One event of the write stage's trace, recording the modelled write
buffer size just before and just after the event. -/
structure WEntry : Type where
  ev : WK
  bufBefore : Nat
  bufAfter : Nat
deriving DecidableEq

/-- Result of the write stage's loops: the updated dispatcher, the
remaining `rx`/`wr`/`fl` scripts, the event trace, and the returned
boolean (`true` iff the state was changed). -/
structure WriteRes (Req I E EncE DecE : Type) : Type where
  d : Disp Req I E EncE DecE
  rx : List (PollR (Option (Except E (InnerMessage I))))
  wr : List (Except EncE Unit)
  fl : List (PollR (Except EncE Unit))
  trace : List WEntry
  progress : Bool

/-- `Framed::write` consumes one element of the `wr` script; an
exhausted script encodes as success. -/
def takeWr {EncE : Type} :
    List (Except EncE Unit) → Except EncE Unit × List (Except EncE Unit)
  | [] => (Except.ok (), [])
  | w :: ws => (w, ws)

/-- The inner loop of `FramedDispatcher::poll_write`:
`while !this.framed.is_write_buf_full() { match rx.poll_next(cx) ... }`.
A `Ready(Some(Ok(Item msg)))` is encoded into the write buffer (encode
failure sets `FramedError(Encoder)`); `Ready(Some(Ok(Close)))` sets
`FlushAndStop`; `Ready(Some(Err))` sets `Error(Service)`;
`Ready(None)` and `Pending` break the loop.  The `fl` script is
untouched here and threaded by the outer loop. -/
def write_inner {Req I E EncE DecE : Type} :
    List (PollR (Option (Except E (InnerMessage I)))) →
      List (Except EncE Unit) → Disp Req I E EncE DecE →
      WriteRes Req I E EncE DecE
  | [], wr, d => ⟨d, [], wr, [], [], false⟩
  | m :: rs, wr, d =>
      if d.cap ≤ d.buf then ⟨d, m :: rs, wr, [], [], false⟩
      else
        match m with
        | PollR.pending => ⟨d, rs, wr, [], [], false⟩
        | PollR.ready none => ⟨d, rs, wr, [], [], false⟩
        | PollR.ready (some (Except.error e)) =>
            ⟨{ d with state := State.error (FramedDispatcherError.service e) },
              rs, wr, [], [⟨WK.pull, d.buf, d.buf⟩], true⟩
        | PollR.ready (some (Except.ok InnerMessage.close)) =>
            ⟨{ d with state := State.flushAndStop },
              rs, wr, [], [⟨WK.pull, d.buf, d.buf⟩], true⟩
        | PollR.ready (some (Except.ok (InnerMessage.item msg))) =>
            match takeWr wr with
            | (Except.error e, ws) =>
                ⟨{ d with
                    state :=
                      State.framedError (FramedDispatcherError.encoder e) },
                  rs, ws, [], [⟨WK.pull, d.buf, d.buf⟩], true⟩
            | (Except.ok _, ws) =>
                let r :=
                  write_inner rs ws
                    { d with buf := d.buf + 1, written := d.written ++ [msg] }
                ⟨r.d, r.rx, r.wr, r.fl,
                  ⟨WK.pull, d.buf, d.buf⟩ :: ⟨WK.wrote, d.buf, d.buf + 1⟩ ::
                    r.trace,
                  r.progress⟩

/-- The outer loop of `FramedDispatcher::poll_write`: run the inner
loop; if it changed the state, return `true`.  Otherwise, when the
write buffer is non-empty, flush: `Pending` breaks the loop, success
drains the buffer and repeats the pair, failure sets
`FramedError(Encoder)` and returns `true`.  An empty buffer breaks the
loop; the function then returns `false`. -/
def write_outer {Req I E EncE DecE : Type} :
    List (PollR (Except EncE Unit)) →
      List (PollR (Option (Except E (InnerMessage I)))) →
      List (Except EncE Unit) → Disp Req I E EncE DecE →
      WriteRes Req I E EncE DecE
  | fl, rx, wr, d =>
      let r := write_inner rx wr d
      if r.progress then ⟨r.d, r.rx, r.wr, fl, r.trace, true⟩
      else if r.d.buf = 0 then ⟨r.d, r.rx, r.wr, fl, r.trace, false⟩
      else
        match fl with
        | [] =>
            ⟨{ r.d with flushes := r.d.flushes + 1 }, r.rx, r.wr, [],
              r.trace ++ [⟨WK.flushPending, r.d.buf, r.d.buf⟩], false⟩
        | PollR.pending :: fs =>
            ⟨{ r.d with flushes := r.d.flushes + 1 }, r.rx, r.wr, fs,
              r.trace ++ [⟨WK.flushPending, r.d.buf, r.d.buf⟩], false⟩
        | PollR.ready (Except.error e) :: fs =>
            ⟨{ r.d with
                state := State.framedError (FramedDispatcherError.encoder e),
                flushes := r.d.flushes + 1 },
              r.rx, r.wr, fs,
              r.trace ++ [⟨WK.flushErr, r.d.buf, r.d.buf⟩], true⟩
        | PollR.ready (Except.ok _) :: fs =>
            let r2 :=
              write_outer fs r.rx r.wr
                { r.d with buf := 0, flushes := r.d.flushes + 1 }
            ⟨r2.d, r2.rx, r2.wr, r2.fl,
              r.trace ++ ⟨WK.flushOk, r.d.buf, 0⟩ :: r2.trace, r2.progress⟩

/-- `FramedDispatcher::poll_write`, packaged over the environment.
The `writeRuns` ghost counter records that the write stage ran. -/
def poll_write {Req I E EncE DecE : Type} (d : Disp Req I E EncE DecE)
    (env : Env Req I E EncE DecE) :
    Disp Req I E EncE DecE × Env Req I E EncE DecE × List WEntry × Bool :=
  let r :=
    write_outer env.fl env.rx env.wr { d with writeRuns := d.writeRuns + 1 }
  (r.d, { env with rx := r.rx, wr := r.wr, fl := r.fl }, r.trace, r.progress)

/-- Result of one external poll of the dispatcher future. -/
structure PollResult (Req I E EncE DecE : Type) : Type where
  res : PollR (Except (FramedDispatcherError E EncE DecE) Unit)
  d : Disp Req I E EncE DecE
  env : Env Req I E EncE DecE

/-- The non-`Processing` arms of `<FramedDispatcher as Future>::poll`.

`Error(_)`: if the write buffer is non-empty, a final flush is issued
and only its pendingness is inspected (`flush(cx).is_pending()`); if
pending, the poll returns `Pending` with the state unchanged,
otherwise (flush success or failure alike) the dispatcher resolves
with `Err(state.take_error())`, leaving `Processing` in the slot.

`FlushAndStop`: with a non-empty write buffer, flush; failure is
logged and the dispatcher resolves `Ok(())`, pending stays `Pending`,
success resolves `Ok(())`.  With an empty buffer, resolve `Ok(())`.

`FramedError(_)`: resolve immediately with
`Err(state.take_framed_error())` — no flush is issued.

`Stopping`: resolve `Ok(())`.

The `Processing` case cannot reach this function (the caller `poll`
handles it); it is mapped to `Pending`. -/
def resolve_terminal {Req I E EncE DecE : Type} (d : Disp Req I E EncE DecE)
    (env : Env Req I E EncE DecE) : PollResult Req I E EncE DecE :=
  match d.state with
  | State.processing => ⟨PollR.pending, d, env⟩
  | State.error e =>
      if d.buf = 0 then
        ⟨PollR.ready (Except.error e), { d with state := State.processing },
          env⟩
      else
        match env.fl with
        | [] => ⟨PollR.pending, { d with flushes := d.flushes + 1 }, env⟩
        | PollR.pending :: fs =>
            ⟨PollR.pending, { d with flushes := d.flushes + 1 },
              { env with fl := fs }⟩
        | PollR.ready (Except.ok _) :: fs =>
            ⟨PollR.ready (Except.error e),
              { d with
                state := State.processing,
                buf := 0,
                flushes := d.flushes + 1 },
              { env with fl := fs }⟩
        | PollR.ready (Except.error _) :: fs =>
            ⟨PollR.ready (Except.error e),
              { d with state := State.processing, flushes := d.flushes + 1 },
              { env with fl := fs }⟩
  | State.flushAndStop =>
      if d.buf = 0 then ⟨PollR.ready (Except.ok ()), d, env⟩
      else
        match env.fl with
        | [] => ⟨PollR.pending, { d with flushes := d.flushes + 1 }, env⟩
        | PollR.pending :: fs =>
            ⟨PollR.pending, { d with flushes := d.flushes + 1 },
              { env with fl := fs }⟩
        | PollR.ready (Except.ok _) :: fs =>
            ⟨PollR.ready (Except.ok ()),
              { d with buf := 0, flushes := d.flushes + 1 },
              { env with fl := fs }⟩
        | PollR.ready (Except.error _) :: fs =>
            ⟨PollR.ready (Except.ok ()),
              { d with flushes := d.flushes + 1 }, { env with fl := fs }⟩
  | State.framedError e =>
      ⟨PollR.ready (Except.error e), { d with state := State.processing },
        env⟩
  | State.stopping => ⟨PollR.ready (Except.ok ()), d, env⟩

/-- `<FramedDispatcher as Future>::poll`.  The `Processing` arm runs
`poll_read(cx) || poll_write(cx)` — the Rust `||` short-circuits, so
the write stage runs only when the read stage reported no progress.
If either reported progress the `loop` re-matches on the (now
terminal) state within the same poll; otherwise the poll returns
`Pending`.  A non-`Processing` state is handled by
`resolve_terminal`. -/
def poll {Req I E EncE DecE : Type} (d : Disp Req I E EncE DecE)
    (env : Env Req I E EncE DecE) : PollResult Req I E EncE DecE :=
  match d.state with
  | State.processing =>
      let r := poll_read d env
      if r.2.2 then resolve_terminal r.1 r.2.1
      else
        let w := poll_write r.1 r.2.1
        if w.2.2.2 then resolve_terminal w.1 w.2.1
        else ⟨PollR.pending, w.1, w.2.1⟩
  | _ => resolve_terminal d env

/-- Result of driving the dispatcher with up to `fuel` external polls:
`res = some r` when the future resolved with `r`, `none` when every
poll returned `Pending`. -/
structure RunResult (Req I E EncE DecE : Type) : Type where
  res : Option (Except (FramedDispatcherError E EncE DecE) Unit)
  d : Disp Req I E EncE DecE
  env : Env Req I E EncE DecE

/-- Drive the dispatcher future: poll repeatedly (as an executor
would) until it resolves or `fuel` polls have returned `Pending`. -/
def run {Req I E EncE DecE : Type} :
    Nat → Disp Req I E EncE DecE → Env Req I E EncE DecE →
      RunResult Req I E EncE DecE
  | 0, d, env => ⟨none, d, env⟩
  | fuel + 1, d, env =>
      match poll d env with
      | ⟨PollR.ready r, d1, env1⟩ => ⟨some r, d1, env1⟩
      | ⟨PollR.pending, d1, env1⟩ => run fuel d1 env1

section Lemmas

variable {Req I E EncE DecE : Type}

/-- A dispatcher in state `Error(e)` either resolves with `Err(e)` on
this poll or stays pending in state `Error(e)`. -/
theorem poll_error_cases (d : Disp Req I E EncE DecE)
    (env : Env Req I E EncE DecE) (e : FramedDispatcherError E EncE DecE)
    (h : d.state = State.error e) :
    (poll d env).res = PollR.ready (Except.error e) ∨
      ((poll d env).res = PollR.pending ∧
        (poll d env).d.state = State.error e) := by
  have hpoll : poll d env = resolve_terminal d env := by
    unfold poll
    rw [h]
  rw [hpoll]
  unfold resolve_terminal
  rw [h]
  by_cases hb : d.buf = 0
  · simp [hb]
  · rcases henv : env.fl with _ | ⟨f, fs⟩
    · simp [hb, henv, h]
    · cases f with
      | pending => simp [hb, henv, h]
      | ready r => cases r <;> simp [hb, henv]

/-- Every resolution of a run started in state `Error(e)` yields
`Err(e)`. -/
theorem run_error_resolves (fuel : Nat) :
    ∀ (d : Disp Req I E EncE DecE) (env : Env Req I E EncE DecE)
      (e : FramedDispatcherError E EncE DecE), d.state = State.error e →
      ∀ r, (run fuel d env).res = some r → r = Except.error e := by
  induction fuel with
  | zero => intro d env e _ r hr; simp [run] at hr
  | succ n ih =>
      intro d env e h r hr
      rcases hp : poll d env with ⟨res, d1, env1⟩
      rcases poll_error_cases d env e h with hc | ⟨hc, hs⟩
      · rw [hp] at hc
        simp at hc
        rw [run, hp, hc] at hr
        simp at hr
        exact hr.symm
      · rw [hp] at hc hs
        simp at hc hs
        rw [run, hp, hc] at hr
        exact ih d1 env1 e hs r hr

/-- A dispatcher in state `FlushAndStop` either resolves with `Ok(())`
on this poll or stays pending in state `FlushAndStop`; either way the
`rx`, `ready` and `items` scripts are untouched. -/
theorem poll_flushAndStop_cases (d : Disp Req I E EncE DecE)
    (env : Env Req I E EncE DecE) (h : d.state = State.flushAndStop) :
    ((poll d env).res = PollR.ready (Except.ok ()) ∨
      ((poll d env).res = PollR.pending ∧
        (poll d env).d.state = State.flushAndStop)) ∧
      (poll d env).env.rx = env.rx ∧
      (poll d env).env.ready = env.ready ∧
      (poll d env).env.items = env.items := by
  have hpoll : poll d env = resolve_terminal d env := by
    unfold poll
    rw [h]
  rw [hpoll]
  unfold resolve_terminal
  rw [h]
  by_cases hb : d.buf = 0
  · simp [hb]
  · rcases henv : env.fl with _ | ⟨f, fs⟩
    · simp [hb, henv, h]
    · cases f with
      | pending => simp [hb, henv, h]
      | ready r => cases r <;> simp [hb, henv]

/-- Every resolution of a run started in state `FlushAndStop` yields
`Ok(())`, and no such run ever pulls from the result channel. -/
theorem run_flushAndStop (fuel : Nat) :
    ∀ (d : Disp Req I E EncE DecE) (env : Env Req I E EncE DecE),
      d.state = State.flushAndStop →
      (run fuel d env).env.rx = env.rx ∧
        ∀ r, (run fuel d env).res = some r → r = Except.ok () := by
  induction fuel with
  | zero => intro d env _; simp [run]
  | succ n ih =>
      intro d env h
      rcases hp : poll d env with ⟨res, d1, env1⟩
      obtain ⟨hres, hrx, -, -⟩ := poll_flushAndStop_cases d env h
      rw [hp] at hres hrx
      simp at hrx
      rcases hres with hc | ⟨hc, hs⟩ <;> simp at hc
      · rw [run, hp, hc]
        simp [hrx]
      · simp at hs
        rw [run, hp, hc]
        obtain ⟨ih1, ih2⟩ := ih d1 env1 hs
        exact ⟨by rw [ih1, hrx], ih2⟩

end Lemmas

/-- C6: the error payload of a terminal state is consumed destructively
exactly once: a successful take returns the owned error and replaces
the state slot with `Processing` as a sentinel, and invoking either
take operation on any other state value — in particular a second time,
or taking an `Error` payload out of a `FramedError` slot — panics
(modelled as `none`) rather than returning a value. -/
theorem take_error_consumed_once :
    (∀ (E EncE DecE : Type) (e : FramedDispatcherError E EncE DecE),
      State.take_error (State.error e) = some (e, State.processing)) ∧
    (∀ (E EncE DecE : Type) (e : FramedDispatcherError E EncE DecE),
      State.take_framed_error (State.framedError e) =
        some (e, State.processing)) ∧
    (∀ (E EncE DecE : Type),
      State.take_error (State.processing : State E EncE DecE) = none) ∧
    (∀ (E EncE DecE : Type) (e : FramedDispatcherError E EncE DecE),
      State.take_error (State.framedError e) = none) ∧
    (∀ (E EncE DecE : Type),
      State.take_error (State.flushAndStop : State E EncE DecE) = none) ∧
    (∀ (E EncE DecE : Type),
      State.take_error (State.stopping : State E EncE DecE) = none) ∧
    (∀ (E EncE DecE : Type),
      State.take_framed_error (State.processing : State E EncE DecE) =
        none) ∧
    (∀ (E EncE DecE : Type) (e : FramedDispatcherError E EncE DecE),
      State.take_framed_error (State.error e) = none) ∧
    (∀ (E EncE DecE : Type),
      State.take_framed_error (State.flushAndStop : State E EncE DecE) =
        none) ∧
    (∀ (E EncE DecE : Type),
      State.take_framed_error (State.stopping : State E EncE DecE) =
        none) :=
  ⟨fun _ _ _ _ => rfl, fun _ _ _ _ => rfl, fun _ _ _ => rfl,
    fun _ _ _ _ => rfl, fun _ _ _ => rfl, fun _ _ _ => rfl,
    fun _ _ _ => rfl, fun _ _ _ _ => rfl, fun _ _ _ => rfl,
    fun _ _ _ => rfl⟩

/-- C1: the two terminal-error states are asymmetric.  In `Error(e)`
with a non-empty write buffer a final flush is attempted (the ghost
`flushes` counter increases): while the flush is pending the poll
stays pending in state `Error(e)`, and once the flush completes the
dispatcher resolves `Err(e)` whatever the flush result was; with an
empty buffer it resolves `Err(e)` without flushing.  Every resolution
of a run from `Error(e)` is `Err(e)`.  In `FramedError(e)` the
dispatcher resolves `Err(e)` immediately, with no flush attempted
(`flushes` and the flush script untouched). -/
theorem terminal_error_asymmetry :
    ∀ (Req I E EncE DecE : Type) (d : Disp Req I E EncE DecE)
      (env : Env Req I E EncE DecE) (e : FramedDispatcherError E EncE DecE),
      (d.state = State.error e → d.buf ≠ 0 → env.fl = [] →
        (poll d env).res = PollR.pending ∧
          (poll d env).d.state = State.error e ∧
          (poll d env).d.flushes = d.flushes + 1) ∧
      (d.state = State.error e → d.buf ≠ 0 →
        ∀ fs, env.fl = PollR.pending :: fs →
          (poll d env).res = PollR.pending ∧
            (poll d env).d.state = State.error e ∧
            (poll d env).d.flushes = d.flushes + 1) ∧
      (d.state = State.error e → d.buf ≠ 0 →
        ∀ r fs, env.fl = PollR.ready r :: fs →
          (poll d env).res = PollR.ready (Except.error e) ∧
            (poll d env).d.flushes = d.flushes + 1) ∧
      (d.state = State.error e → d.buf = 0 →
        (poll d env).res = PollR.ready (Except.error e) ∧
          (poll d env).d.flushes = d.flushes ∧
          (poll d env).env.fl = env.fl) ∧
      (d.state = State.error e →
        ∀ fuel r, (run fuel d env).res = some r → r = Except.error e) ∧
      (d.state = State.framedError e →
        (poll d env).res = PollR.ready (Except.error e) ∧
          (poll d env).env.fl = env.fl ∧
          (poll d env).d.flushes = d.flushes) := by
  intro Req I E EncE DecE d env e
  refine ⟨?_, ?_, ?_, ?_, ?_, ?_⟩
  · intro h hb hfl
    have hpoll : poll d env = resolve_terminal d env := by
      unfold poll; rw [h]
    rw [hpoll]; unfold resolve_terminal; rw [h]; simp [hb, hfl, h]
  · intro h hb fs hfl
    have hpoll : poll d env = resolve_terminal d env := by
      unfold poll; rw [h]
    rw [hpoll]; unfold resolve_terminal; rw [h]; simp [hb, hfl, h]
  · intro h hb r fs hfl
    have hpoll : poll d env = resolve_terminal d env := by
      unfold poll; rw [h]
    rw [hpoll]; unfold resolve_terminal; rw [h]
    cases r <;> simp [hb, hfl]
  · intro h hb
    have hpoll : poll d env = resolve_terminal d env := by
      unfold poll; rw [h]
    rw [hpoll]; unfold resolve_terminal; rw [h]; simp [hb]
  · intro h fuel r hr
    exact run_error_resolves fuel d env e h r hr
  · intro h
    have hpoll : poll d env = resolve_terminal d env := by
      unfold poll; rw [h]
    rw [hpoll]; unfold resolve_terminal; rw [h]; simp

/-- Concrete inputs for the C1 witness. -/
def c1d : Disp Nat Nat Nat Nat Nat :=
  ⟨State.error (FramedDispatcherError.service 1), 1, 2, [], [], 0, 0⟩

/-- Concrete inputs for the C1 witness (empty write buffer). -/
def c1dEmpty : Disp Nat Nat Nat Nat Nat :=
  ⟨State.error (FramedDispatcherError.service 1), 0, 2, [], [], 0, 0⟩

/-- Concrete inputs for the C1 witness (`FramedError` state). -/
def c1dFramed : Disp Nat Nat Nat Nat Nat :=
  ⟨State.framedError (FramedDispatcherError.decoder 2), 1, 2, [], [], 0, 0⟩

/-- Concrete environment with an exhausted flush script. -/
def c1envNil : Env Nat Nat Nat Nat Nat := ⟨[], [], [], [], []⟩

/-- Concrete environment whose flush is pending. -/
def c1envPend : Env Nat Nat Nat Nat Nat := ⟨[], [], [], [], [PollR.pending]⟩

/-- Concrete environment whose flush fails. -/
def c1envErr : Env Nat Nat Nat Nat Nat :=
  ⟨[], [], [], [], [PollR.ready (Except.error 3)]⟩

/-- Witness for C1: each case of `terminal_error_asymmetry`
instantiated at concrete inputs. -/
theorem terminal_error_asymmetry_witness :
    ((poll c1d c1envNil).res = PollR.pending ∧
      (poll c1d c1envNil).d.state =
        State.error (FramedDispatcherError.service 1) ∧
      (poll c1d c1envNil).d.flushes = c1d.flushes + 1) ∧
    ((poll c1d c1envPend).res = PollR.pending ∧
      (poll c1d c1envPend).d.state =
        State.error (FramedDispatcherError.service 1) ∧
      (poll c1d c1envPend).d.flushes = c1d.flushes + 1) ∧
    ((poll c1d c1envErr).res =
        PollR.ready (Except.error (FramedDispatcherError.service 1)) ∧
      (poll c1d c1envErr).d.flushes = c1d.flushes + 1) ∧
    ((poll c1dEmpty c1envErr).res =
        PollR.ready (Except.error (FramedDispatcherError.service 1)) ∧
      (poll c1dEmpty c1envErr).d.flushes = c1dEmpty.flushes ∧
      (poll c1dEmpty c1envErr).env.fl = c1envErr.fl) ∧
    (Except.error (FramedDispatcherError.service 1) =
      (Except.error (FramedDispatcherError.service 1) :
        Except (FramedDispatcherError Nat Nat Nat) Unit)) ∧
    ((poll c1dFramed c1envErr).res =
        PollR.ready (Except.error (FramedDispatcherError.decoder 2)) ∧
      (poll c1dFramed c1envErr).env.fl = c1envErr.fl ∧
      (poll c1dFramed c1envErr).d.flushes = c1dFramed.flushes) :=
  ⟨(terminal_error_asymmetry Nat Nat Nat Nat Nat c1d c1envNil
      (FramedDispatcherError.service 1)).1 rfl (by decide) rfl,
    (terminal_error_asymmetry Nat Nat Nat Nat Nat c1d c1envPend
      (FramedDispatcherError.service 1)).2.1 rfl (by decide) [] rfl,
    (terminal_error_asymmetry Nat Nat Nat Nat Nat c1d c1envErr
      (FramedDispatcherError.service 1)).2.2.1 rfl (by decide)
      (Except.error 3) [] rfl,
    (terminal_error_asymmetry Nat Nat Nat Nat Nat c1dEmpty c1envErr
      (FramedDispatcherError.service 1)).2.2.2.1 rfl rfl,
    ((terminal_error_asymmetry Nat Nat Nat Nat Nat c1dEmpty c1envErr
      (FramedDispatcherError.service 1)).2.2.2.2.1 rfl 1
      (Except.error (FramedDispatcherError.service 1)) (by decide)).symm,
    (terminal_error_asymmetry Nat Nat Nat Nat Nat c1dFramed c1envErr
      (FramedDispatcherError.decoder 2)).2.2.2.2.2 rfl⟩

/-- C2: in state `FlushAndStop`, with a non-empty write buffer a flush
is attempted: pending stays suspended in `FlushAndStop`, and the
dispatcher resolves `Ok(())` whether the flush succeeds or fails (a
flush failure is swallowed); with an empty buffer it resolves `Ok(())`
immediately without flushing.  Every resolution of a run reaching
`FlushAndStop` is `Ok(())`. -/
theorem flushAndStop_resolves_ok :
    ∀ (Req I E EncE DecE : Type) (d : Disp Req I E EncE DecE)
      (env : Env Req I E EncE DecE),
      d.state = State.flushAndStop →
      (d.buf = 0 →
        (poll d env).res = PollR.ready (Except.ok ()) ∧
          (poll d env).d.flushes = d.flushes) ∧
      (d.buf ≠ 0 → env.fl = [] →
        (poll d env).res = PollR.pending ∧
          (poll d env).d.state = State.flushAndStop ∧
          (poll d env).d.flushes = d.flushes + 1) ∧
      (d.buf ≠ 0 →
        ∀ fs, env.fl = PollR.pending :: fs →
          (poll d env).res = PollR.pending ∧
            (poll d env).d.state = State.flushAndStop ∧
            (poll d env).d.flushes = d.flushes + 1) ∧
      (d.buf ≠ 0 →
        ∀ fs, env.fl = PollR.ready (Except.ok ()) :: fs →
          (poll d env).res = PollR.ready (Except.ok ()) ∧
            (poll d env).d.flushes = d.flushes + 1) ∧
      (d.buf ≠ 0 →
        ∀ er fs, env.fl = PollR.ready (Except.error er) :: fs →
          (poll d env).res = PollR.ready (Except.ok ()) ∧
            (poll d env).d.flushes = d.flushes + 1) ∧
      (∀ fuel r, (run fuel d env).res = some r → r = Except.ok ()) := by
  intro Req I E EncE DecE d env h
  have hpoll : poll d env = resolve_terminal d env := by
    unfold poll; rw [h]
  refine ⟨?_, ?_, ?_, ?_, ?_, ?_⟩
  · intro hb
    rw [hpoll]; unfold resolve_terminal; rw [h]; simp [hb]
  · intro hb hfl
    rw [hpoll]; unfold resolve_terminal; rw [h]; simp [hb, hfl, h]
  · intro hb fs hfl
    rw [hpoll]; unfold resolve_terminal; rw [h]; simp [hb, hfl, h]
  · intro hb fs hfl
    rw [hpoll]; unfold resolve_terminal; rw [h]; simp [hb, hfl]
  · intro hb er fs hfl
    rw [hpoll]; unfold resolve_terminal; rw [h]; simp [hb, hfl]
  · intro fuel r hr
    exact (run_flushAndStop fuel d env h).2 r hr

/-- Concrete inputs for the C2 witness (non-empty write buffer). -/
def c2d : Disp Nat Nat Nat Nat Nat := ⟨State.flushAndStop, 1, 2, [], [], 0, 0⟩

/-- Concrete inputs for the C2 witness (empty write buffer). -/
def c2dEmpty : Disp Nat Nat Nat Nat Nat :=
  ⟨State.flushAndStop, 0, 2, [], [], 0, 0⟩

/-- Concrete environment whose flush succeeds. -/
def c2envOk : Env Nat Nat Nat Nat Nat :=
  ⟨[], [], [], [], [PollR.ready (Except.ok ())]⟩

/-- Witness for C2: each case of `flushAndStop_resolves_ok`
instantiated at concrete inputs. -/
theorem flushAndStop_resolves_ok_witness :
    ((poll c2dEmpty c1envNil).res = PollR.ready (Except.ok ()) ∧
      (poll c2dEmpty c1envNil).d.flushes = c2dEmpty.flushes) ∧
    ((poll c2d c1envNil).res = PollR.pending ∧
      (poll c2d c1envNil).d.state = State.flushAndStop ∧
      (poll c2d c1envNil).d.flushes = c2d.flushes + 1) ∧
    ((poll c2d c1envPend).res = PollR.pending ∧
      (poll c2d c1envPend).d.state = State.flushAndStop ∧
      (poll c2d c1envPend).d.flushes = c2d.flushes + 1) ∧
    ((poll c2d c2envOk).res = PollR.ready (Except.ok ()) ∧
      (poll c2d c2envOk).d.flushes = c2d.flushes + 1) ∧
    ((poll c2d c1envErr).res = PollR.ready (Except.ok ()) ∧
      (poll c2d c1envErr).d.flushes = c2d.flushes + 1) ∧
    (Except.ok () =
      (Except.ok () : Except (FramedDispatcherError Nat Nat Nat) Unit)) :=
  ⟨(flushAndStop_resolves_ok Nat Nat Nat Nat Nat c2dEmpty c1envNil rfl).1 rfl,
    (flushAndStop_resolves_ok Nat Nat Nat Nat Nat c2d c1envNil rfl).2.1
      (by decide) rfl,
    (flushAndStop_resolves_ok Nat Nat Nat Nat Nat c2d c1envPend rfl).2.2.1
      (by decide) [] rfl,
    (flushAndStop_resolves_ok Nat Nat Nat Nat Nat c2d c2envOk rfl).2.2.2.1
      (by decide) [] rfl,
    (flushAndStop_resolves_ok Nat Nat Nat Nat Nat c2d c1envErr rfl).2.2.2.2.1
      (by decide) 3 [] rfl,
    ((flushAndStop_resolves_ok Nat Nat Nat Nat Nat c2d c2envOk rfl).2.2.2.2.2
      1 (Except.ok ()) (by decide)).symm⟩

section ReadLemmas

variable {Req I E EncE DecE : Type}

/-- Consuming a prefix of readiness successes paired with successfully
decoded items admits exactly those items, in order, and continues the
loop on the remaining scripts. -/
theorem poll_read_loop_admits (itemsPre : List Req) :
    ∀ (restR : List (PollR (Except E Unit)))
      (post : List (PollR (Option (Except DecE Req))))
      (d : Disp Req I E EncE DecE),
      poll_read_loop
        (List.replicate itemsPre.length (PollR.ready (Except.ok ())) ++ restR)
        (itemsPre.map (fun r => PollR.ready (some (Except.ok r))) ++ post)
        d =
        poll_read_loop restR post
          { d with admitted := d.admitted ++ itemsPre } := by
  induction itemsPre with
  | nil => intro restR post d; simp
  | cons a as ih =>
      intro restR post d
      simp only [List.length_cons, List.replicate_succ, List.map_cons,
        List.cons_append, poll_read_loop, List.append_eq]
      rw [ih]
      simp

end ReadLemmas

/-- Concrete inputs for the C3 counterexample: a response is already
buffered (`buf = 1`), the next incoming frame fails to decode, and the
flush script would succeed if it were consulted. -/
def c3d : Disp Nat Nat Nat Nat Nat := ⟨State.processing, 1, 2, [], [7], 0, 0⟩

/-- Environment for the C3 counterexample. -/
def c3env : Env Nat Nat Nat Nat Nat :=
  ⟨[PollR.ready (Except.ok ())], [PollR.ready (some (Except.error 5))],
    [], [], [PollR.ready (Except.ok ())]⟩

/-- Counterexample to C3 as stated: with a buffered response still in
the write buffer, a decode failure makes the dispatcher resolve with
the decode error while the buffer is still non-empty, the flush
counter is still `0` and the flush script is untouched — no flush of
the already-buffered responses is ever attempted (the decode error
takes the `FramedError` path, which never flushes). -/
theorem decode_error_no_flush_cex :
    (run 3 c3d c3env).res =
        some (Except.error (FramedDispatcherError.decoder 5)) ∧
      c3d.buf = 1 ∧
      (run 3 c3d c3env).d.buf = 1 ∧
      (run 3 c3d c3env).d.flushes = 0 ∧
      (run 3 c3d c3env).env.fl = c3env.fl :=
  ⟨by decide, rfl, rfl, rfl, rfl⟩

/-- C3 (amended): if decoding fails on item N, no item after N is ever
admitted to the service — exactly the items before N are admitted and
the item script after N is left unconsumed — and the dispatcher
resolves with the decode error in the same poll, immediately and
without attempting to flush already-buffered responses (the `flushes`
counter, the flush script, the result channel and even the write
stage are untouched). -/
theorem decode_error_stops_admission :
    ∀ (Req I E EncE DecE : Type) (itemsPre : List Req) (e : DecE)
      (post : List (PollR (Option (Except DecE Req))))
      (restR : List (PollR (Except E Unit)))
      (d : Disp Req I E EncE DecE) (env : Env Req I E EncE DecE),
      d.state = State.processing →
      env.ready =
        List.replicate itemsPre.length (PollR.ready (Except.ok ())) ++
          PollR.ready (Except.ok ()) :: restR →
      env.items =
        itemsPre.map (fun r => PollR.ready (some (Except.ok r))) ++
          PollR.ready (some (Except.error e)) :: post →
      (poll d env).res =
          PollR.ready (Except.error (FramedDispatcherError.decoder e)) ∧
        (poll d env).d.admitted = d.admitted ++ itemsPre ∧
        (poll d env).env.items = post ∧
        (poll d env).d.flushes = d.flushes ∧
        (poll d env).d.writeRuns = d.writeRuns ∧
        (poll d env).env.rx = env.rx ∧
        (poll d env).env.fl = env.fl := by
  intro Req I E EncE DecE itemsPre e post restR d env h hready hitems
  have hloop :
      poll_read_loop env.ready env.items d =
        ⟨{ d with
            admitted := d.admitted ++ itemsPre,
            state := State.framedError (FramedDispatcherError.decoder e) },
          restR, post, true⟩ := by
    rw [hready, hitems, poll_read_loop_admits]
    simp [poll_read_loop]
  have hpr :
      poll_read d env =
        ({ d with
            admitted := d.admitted ++ itemsPre,
            state := State.framedError (FramedDispatcherError.decoder e) },
          { env with ready := restR, items := post }, true) := by
    simp [poll_read, hloop]
  unfold poll
  rw [h]
  simp only [hpr]
  unfold resolve_terminal
  simp

/-- Concrete inputs for the C3 witness. -/
def c3wd : Disp Nat Nat Nat Nat Nat := ⟨State.processing, 0, 2, [], [], 0, 0⟩

/-- Environment for the C3 witness: one item decodes, the next fails. -/
def c3wenv : Env Nat Nat Nat Nat Nat :=
  ⟨[PollR.ready (Except.ok ()), PollR.ready (Except.ok ())],
    [PollR.ready (some (Except.ok 4)), PollR.ready (some (Except.error 5)),
      PollR.pending],
    [PollR.pending], [], [PollR.pending]⟩

/-- Witness for C3 (amended), at `itemsPre = [4]`, decode error `5`. -/
theorem decode_error_stops_admission_witness :
    (poll c3wd c3wenv).res =
        PollR.ready (Except.error (FramedDispatcherError.decoder 5)) ∧
      (poll c3wd c3wenv).d.admitted = c3wd.admitted ++ [4] ∧
      (poll c3wd c3wenv).env.items = [PollR.pending] ∧
      (poll c3wd c3wenv).d.flushes = c3wd.flushes ∧
      (poll c3wd c3wenv).d.writeRuns = c3wd.writeRuns ∧
      (poll c3wd c3wenv).env.rx = c3wenv.rx ∧
      (poll c3wd c3wenv).env.fl = c3wenv.fl :=
  decode_error_stops_admission Nat Nat Nat Nat Nat [4] 5 [PollR.pending] []
    c3wd c3wenv rfl rfl rfl

/-- Concrete inputs for the C8 scenario: the very first readiness
check fails. -/
def c8d : Disp Nat Nat Nat Nat Nat := ⟨State.processing, 0, 2, [], [], 0, 0⟩

/-- Environment for the C8 scenario: `ready()` errors on the first
check while a decodable item is available. -/
def c8env : Env Nat Nat Nat Nat Nat :=
  ⟨[PollR.ready (Except.error 9)], [PollR.ready (some (Except.ok 1))],
    [], [], []⟩

/-- C8: a readiness-check failure — on any check, after any number of
admitted items — sets the state to `Error(Service(e))` with the read
stage reporting progress, admits nothing further and leaves the item
script after the already-admitted prefix unconsumed; every resolution
from `Error(Service(e))` is `Err(Service(e))`; concretely, when
`ready()` errors on the very first check the run resolves
`Err(Service(9))` with the item script untouched — zero items
decoded. -/
theorem ready_error_terminates :
    (∀ (Req I E EncE DecE : Type) (itemsPre : List Req) (e : E)
      (post : List (PollR (Option (Except DecE Req))))
      (restR : List (PollR (Except E Unit)))
      (d : Disp Req I E EncE DecE) (env : Env Req I E EncE DecE),
      env.ready =
        List.replicate itemsPre.length (PollR.ready (Except.ok ())) ++
          PollR.ready (Except.error e) :: restR →
      env.items =
        itemsPre.map (fun r => PollR.ready (some (Except.ok r))) ++ post →
      (poll_read d env).1.state =
          State.error (FramedDispatcherError.service e) ∧
        (poll_read d env).2.2 = true ∧
        (poll_read d env).1.admitted = d.admitted ++ itemsPre ∧
        (poll_read d env).2.1.items = post) ∧
    (∀ (Req I E EncE DecE : Type) (d : Disp Req I E EncE DecE)
      (env : Env Req I E EncE DecE) (e : E),
      d.state = State.error (FramedDispatcherError.service e) →
      ∀ fuel r, (run fuel d env).res = some r →
        r = Except.error (FramedDispatcherError.service e)) ∧
    ((run 2 c8d c8env).res =
        some (Except.error (FramedDispatcherError.service 9)) ∧
      (run 2 c8d c8env).env.items = c8env.items ∧
      c8env.items.length = 1) := by
  refine ⟨?_, ?_, by decide, by decide, rfl⟩
  · intro Req I E EncE DecE itemsPre e post restR d env hready hitems
    have hloop :
        poll_read_loop env.ready env.items d =
          ⟨{ d with
              admitted := d.admitted ++ itemsPre,
              state := State.error (FramedDispatcherError.service e) },
            restR, post, true⟩ := by
      rw [hready, hitems, poll_read_loop_admits]
      simp [poll_read_loop]
    simp [poll_read, hloop]
  · intro Req I E EncE DecE d env e h fuel r hr
    exact run_error_resolves fuel d env _ h r hr

/-- Witness for C8, at `itemsPre = [3]`, readiness error `9`. -/
def c8wenv : Env Nat Nat Nat Nat Nat :=
  ⟨[PollR.ready (Except.ok ()), PollR.ready (Except.error 9)],
    [PollR.ready (some (Except.ok 3)), PollR.pending], [], [], []⟩

/-- Witness for C8: `ready_error_terminates` instantiated at concrete
inputs (one item admitted, then the readiness check fails). -/
theorem ready_error_terminates_witness :
    ((poll_read c8d c8wenv).1.state =
        State.error (FramedDispatcherError.service 9) ∧
      (poll_read c8d c8wenv).2.2 = true ∧
      (poll_read c8d c8wenv).1.admitted = c8d.admitted ++ [3] ∧
      (poll_read c8d c8wenv).2.1.items = [PollR.pending]) ∧
    (Except.error (FramedDispatcherError.service 9) =
      (Except.error (FramedDispatcherError.service 9) :
        Except (FramedDispatcherError Nat Nat Nat) Unit)) :=
  ⟨ready_error_terminates.1 Nat Nat Nat Nat Nat [3] 9 [PollR.pending] []
      c8d c8wenv rfl rfl,
    (ready_error_terminates.2.1 Nat Nat Nat Nat Nat
      ⟨State.error (FramedDispatcherError.service 9), 0, 2, [], [], 0, 0⟩
      c1envNil 9 rfl 1 (Except.error (FramedDispatcherError.service 9))
      (by decide)).symm⟩

/-- Concrete inputs for the C9 scenario. -/
def c9d : Disp Nat Nat Nat Nat Nat := ⟨State.processing, 0, 2, [], [], 0, 0⟩

/-- Environment for the C9 scenario: requests `1` (A) and `2` (B) are
decoded and admitted in that order; B's handler finishes first, so the
result channel delivers B's response `20` before A's response `10`;
afterwards the stream ends cleanly. -/
def c9env : Env Nat Nat Nat Nat Nat :=
  ⟨[PollR.ready (Except.ok ()), PollR.ready (Except.ok ()),
      PollR.ready (Except.ok ()), PollR.ready (Except.ok ())],
    [PollR.ready (some (Except.ok 1)), PollR.ready (some (Except.ok 2)),
      PollR.pending, PollR.ready none],
    [PollR.ready (some (Except.ok (InnerMessage.item 20))),
      PollR.ready (some (Except.ok (InnerMessage.item 10))), PollR.pending],
    [Except.ok (), Except.ok ()],
    [PollR.ready (Except.ok ())]⟩

/-- C9: responses are written in completion order of the concurrent
per-request tasks, not admission order.  With requests admitted in
order A = `1` then B = `2`, and B's response `20` completing (arriving
on the result channel) before A's response `10`, the dispatcher writes
`[20, 10]` — B before A — and the run still resolves `Ok(())`. -/
theorem completion_order_write :
    (run 6 c9d c9env).res = some (Except.ok ()) ∧
      (run 6 c9d c9env).d.admitted = [1, 2] ∧
      (run 6 c9d c9env).d.written = [20, 10] :=
  ⟨by decide, rfl, rfl⟩

/-- Concrete inputs for the C7 scenario. -/
def c7d : Disp Nat Nat Nat Nat Nat := ⟨State.processing, 0, 2, [], [], 0, 0⟩

/-- Environment for the C7 scenario: one response is written, then the
channel delivers `Close` while another completed response is already
waiting behind it; the final flush fails. -/
def c7env : Env Nat Nat Nat Nat Nat :=
  ⟨[PollR.pending, PollR.pending], [],
    [PollR.ready (some (Except.ok (InnerMessage.item 7))),
      PollR.ready (some (Except.ok InnerMessage.close)),
      PollR.ready (some (Except.ok (InnerMessage.item 33)))],
    [Except.ok ()],
    [PollR.ready (Except.error 4)]⟩

/-- C7: when the channel delivers `Close` (the service requested the
connection be closed), the write stage stops pulling immediately —
the rest of the channel script, even further completed responses, is
left unconsumed — and switches to `FlushAndStop`; from `FlushAndStop`
no run ever pulls from the channel again and every resolution is
`Ok(())`; concretely, a run in which a buffered response remains and
the final flush fails still resolves `Ok(())` with the post-`Close`
response never admitted. -/
theorem close_stops_admission :
    (∀ (Req I E EncE DecE : Type) (d : Disp Req I E EncE DecE)
      (env : Env Req I E EncE DecE)
      (rs : List (PollR (Option (Except E (InnerMessage I))))),
      env.rx = PollR.ready (some (Except.ok InnerMessage.close)) :: rs →
      d.buf < d.cap →
      (poll_write d env).1.state = State.flushAndStop ∧
        (poll_write d env).2.2.2 = true ∧
        (poll_write d env).2.1.rx = rs ∧
        (poll_write d env).2.1.fl = env.fl) ∧
    (∀ (Req I E EncE DecE : Type) (d : Disp Req I E EncE DecE)
      (env : Env Req I E EncE DecE),
      d.state = State.flushAndStop →
      ∀ fuel, (run fuel d env).env.rx = env.rx ∧
        ∀ r, (run fuel d env).res = some r → r = Except.ok ()) ∧
    ((run 2 c7d c7env).res = some (Except.ok ()) ∧
      (run 2 c7d c7env).d.written = [7] ∧
      (run 2 c7d c7env).d.flushes = 1 ∧
      (run 2 c7d c7env).env.rx =
        [PollR.ready (some (Except.ok (InnerMessage.item 33)))]) := by
  refine ⟨?_, ?_, by decide, rfl, rfl, rfl⟩
  · intro Req I E EncE DecE d env rs hrx hb
    have hfull : ¬(d.cap ≤ d.buf) := Nat.not_le.mpr hb
    rw [poll_write, write_outer.eq_def]
    simp [write_inner, hrx, hfull]
  · intro Req I E EncE DecE d env h fuel
    exact run_flushAndStop fuel d env h

/-- Concrete inputs for the C7 witness (state already `FlushAndStop`,
channel still holding a completed response). -/
def c7wd : Disp Nat Nat Nat Nat Nat := ⟨State.processing, 0, 2, [], [], 0, 0⟩

/-- Environment for the C7 witness. -/
def c7wenv : Env Nat Nat Nat Nat Nat :=
  ⟨[], [],
    [PollR.ready (some (Except.ok InnerMessage.close)),
      PollR.ready (some (Except.ok (InnerMessage.item 33)))],
    [], [PollR.pending]⟩

/-- Witness for C7: `close_stops_admission` instantiated at concrete
inputs — the response queued behind `Close` is not pulled. -/
theorem close_stops_admission_witness :
    ((poll_write c7wd c7wenv).1.state = State.flushAndStop ∧
      (poll_write c7wd c7wenv).2.2.2 = true ∧
      (poll_write c7wd c7wenv).2.1.rx =
        [PollR.ready (some (Except.ok (InnerMessage.item 33)))] ∧
      (poll_write c7wd c7wenv).2.1.fl = c7wenv.fl) ∧
    ((run 1 c2d c2envOk).env.rx = c2envOk.rx ∧
      ∀ r, (run 1 c2d c2envOk).res = some r → r = Except.ok ()) :=
  ⟨close_stops_admission.1 Nat Nat Nat Nat Nat c7wd c7wenv
      [PollR.ready (some (Except.ok (InnerMessage.item 33)))] rfl
      (by decide),
    close_stops_admission.2.1 Nat Nat Nat Nat Nat c2d c2envOk rfl 1⟩

section StageStateLemmas

variable {Req I E EncE DecE : Type}

/-- When the read loop reports no progress the state is unchanged;
when it reports progress the state was set to `FramedError`,
`Stopping` or `Error` — never back to `Processing` and never to
`FlushAndStop`. -/
theorem poll_read_loop_state
    (rs : List (PollR (Except E Unit))) :
    ∀ (is : List (PollR (Option (Except DecE Req))))
      (d : Disp Req I E EncE DecE),
      ((poll_read_loop rs is d).progress = false →
        (poll_read_loop rs is d).d.state = d.state) ∧
      ((poll_read_loop rs is d).progress = true →
        (poll_read_loop rs is d).d.state ≠ State.processing ∧
          (poll_read_loop rs is d).d.state ≠ State.flushAndStop) := by
  induction rs with
  | nil => intro is d; simp [poll_read_loop]
  | cons m rs ih =>
      intro is d
      cases m with
      | pending => simp [poll_read_loop]
      | ready r =>
          cases r with
          | error e => simp [poll_read_loop]
          | ok u =>
              cases is with
              | nil => simp [poll_read_loop]
              | cons i is2 =>
                  cases i with
                  | pending => simp [poll_read_loop]
                  | ready o =>
                      cases o with
                      | none => simp [poll_read_loop]
                      | some v =>
                          cases v with
                          | error e => simp [poll_read_loop]
                          | ok el =>
                              simpa [poll_read_loop] using ih is2 _

/-- The read loop never touches the write buffer, the written list,
the flush counter or the write-run counter. -/
theorem poll_read_loop_preserves
    (rs : List (PollR (Except E Unit))) :
    ∀ (is : List (PollR (Option (Except DecE Req))))
      (d : Disp Req I E EncE DecE),
      (poll_read_loop rs is d).d.buf = d.buf ∧
        (poll_read_loop rs is d).d.cap = d.cap ∧
        (poll_read_loop rs is d).d.written = d.written ∧
        (poll_read_loop rs is d).d.flushes = d.flushes ∧
        (poll_read_loop rs is d).d.writeRuns = d.writeRuns := by
  induction rs with
  | nil => intro is d; simp [poll_read_loop]
  | cons m rs ih =>
      intro is d
      cases m with
      | pending => simp [poll_read_loop]
      | ready r =>
          cases r with
          | error e => simp [poll_read_loop]
          | ok u =>
              cases is with
              | nil => simp [poll_read_loop]
              | cons i is2 =>
                  cases i with
                  | pending => simp [poll_read_loop]
                  | ready o =>
                      cases o with
                      | none => simp [poll_read_loop]
                      | some v =>
                          cases v with
                          | error e => simp [poll_read_loop]
                          | ok el =>
                              simpa [poll_read_loop] using ih is2 _

/-- The terminal arms never touch the admission/write history, the
write-run counter, or any script other than the flush script. -/
theorem resolve_terminal_preserves (d : Disp Req I E EncE DecE)
    (env : Env Req I E EncE DecE) :
    (resolve_terminal d env).d.writeRuns = d.writeRuns ∧
      (resolve_terminal d env).d.admitted = d.admitted ∧
      (resolve_terminal d env).d.written = d.written ∧
      (resolve_terminal d env).d.cap = d.cap ∧
      (resolve_terminal d env).env.ready = env.ready ∧
      (resolve_terminal d env).env.items = env.items ∧
      (resolve_terminal d env).env.rx = env.rx ∧
      (resolve_terminal d env).env.wr = env.wr := by
  obtain ⟨st, b, cp, ad, wrt, flc, wrn⟩ := d
  obtain ⟨rdy, its, rxs, wrs, fls⟩ := env
  unfold resolve_terminal
  cases st <;> dsimp only <;>
    try exact ⟨rfl, rfl, rfl, rfl, rfl, rfl, rfl, rfl⟩
  case error e =>
    by_cases hb : b = 0
    · simp [hb]
    · rcases fls with _ | ⟨f, fs⟩
      · simp [hb]
      · cases f with
        | pending => simp [hb]
        | ready r => cases r <;> simp [hb]
  case flushAndStop =>
    by_cases hb : b = 0
    · simp [hb]
    · rcases fls with _ | ⟨f, fs⟩
      · simp [hb]
      · cases f with
        | pending => simp [hb]
        | ready r => cases r <;> simp [hb]

/-- If a terminal arm leaves the poll pending, the state is
unchanged. -/
theorem resolve_terminal_pending_state (d : Disp Req I E EncE DecE)
    (env : Env Req I E EncE DecE) :
    (resolve_terminal d env).res = PollR.pending →
    (resolve_terminal d env).d.state = d.state := by
  obtain ⟨st, b, cp, ad, wrt, flc, wrn⟩ := d
  obtain ⟨rdy, its, rxs, wrs, fls⟩ := env
  unfold resolve_terminal
  cases st <;> dsimp only <;> try simp
  case error e =>
    by_cases hb : b = 0
    · simp [hb]
    · rcases fls with _ | ⟨f, fs⟩
      · simp [hb]
      · cases f with
        | pending => simp [hb]
        | ready r => cases r <;> simp [hb]
  case flushAndStop =>
    by_cases hb : b = 0
    · simp [hb]
    · rcases fls with _ | ⟨f, fs⟩
      · simp [hb]
      · cases f with
        | pending => simp [hb]
        | ready r => cases r <;> simp [hb]

/-- When the write stage's inner loop reports no progress the state
is unchanged; when it reports progress the state was set to `Error`,
`FlushAndStop` or `FramedError` — never back to `Processing`. -/
theorem write_inner_state
    (rx : List (PollR (Option (Except E (InnerMessage I))))) :
    ∀ (wr : List (Except EncE Unit)) (d : Disp Req I E EncE DecE),
      ((write_inner rx wr d).progress = false →
        (write_inner rx wr d).d.state = d.state) ∧
      ((write_inner rx wr d).progress = true →
        (write_inner rx wr d).d.state ≠ State.processing) := by
  induction rx with
  | nil => intro wr d; simp [write_inner]
  | cons m rs ih =>
      intro wr d
      by_cases hfull : d.cap ≤ d.buf
      · simp [write_inner, hfull]
      · cases m with
        | pending => simp [write_inner, hfull]
        | ready o =>
            cases o with
            | none => simp [write_inner, hfull]
            | some v =>
                cases v with
                | error e => simp [write_inner, hfull]
                | ok im =>
                    cases im with
                    | close => simp [write_inner, hfull]
                    | item msg =>
                        cases wr with
                        | nil =>
                            simpa [write_inner, hfull, takeWr] using
                              ih []
                                { d with
                                  buf := d.buf + 1,
                                  written := d.written ++ [msg] }
                        | cons w ws =>
                            cases w with
                            | error e =>
                                simp [write_inner, hfull, takeWr]
                            | ok u =>
                                simpa [write_inner, hfull, takeWr] using
                                  ih ws
                                    { d with
                                      buf := d.buf + 1,
                                      written := d.written ++ [msg] }

/-- As `write_inner_state`, for the write stage's outer loop. -/
theorem write_outer_state (fl : List (PollR (Except EncE Unit))) :
    ∀ (rx : List (PollR (Option (Except E (InnerMessage I)))))
      (wr : List (Except EncE Unit)) (d : Disp Req I E EncE DecE),
      ((write_outer fl rx wr d).progress = false →
        (write_outer fl rx wr d).d.state = d.state) ∧
      ((write_outer fl rx wr d).progress = true →
        (write_outer fl rx wr d).d.state ≠ State.processing) := by
  induction fl with
  | nil =>
      intro rx wr d
      rw [write_outer.eq_def]
      by_cases hp : (write_inner rx wr d).progress
      · simp only [hp, if_true]
        exact ⟨by simp, fun _ => (write_inner_state rx wr d).2 hp⟩
      · simp only [hp]
        by_cases hb : (write_inner rx wr d).d.buf = 0 <;>
          simpa [hb] using (write_inner_state rx wr d).1
            (by simpa using hp)
  | cons f fs ih =>
      intro rx wr d
      rw [write_outer.eq_def]
      by_cases hp : (write_inner rx wr d).progress
      · simp only [hp, if_true]
        exact ⟨by simp, fun _ => (write_inner_state rx wr d).2 hp⟩
      · have hst : (write_inner rx wr d).d.state = d.state :=
          (write_inner_state rx wr d).1 (by simpa using hp)
        simp only [hp]
        by_cases hb : (write_inner rx wr d).d.buf = 0
        · simpa [hb] using hst
        · cases f with
          | pending => simpa [hb] using hst
          | ready r =>
              cases r with
              | error e => simp [hb]
              | ok u =>
                  have hrec :=
                    ih (write_inner rx wr d).rx (write_inner rx wr d).wr
                      { (write_inner rx wr d).d with
                        buf := 0,
                        flushes := (write_inner rx wr d).d.flushes + 1 }
                  simp only [hb] at hrec ⊢
                  simp only [Bool.false_eq_true, if_false]
                  refine ⟨fun h0 => ?_, fun h1 => ?_⟩
                  · simpa [hst] using hrec.1 (by simpa using h0)
                  · simpa using hrec.2 (by simpa using h1)

end StageStateLemmas

/-- Concrete inputs for the C4 counterexample. -/
def c4d : Disp Nat Nat Nat Nat Nat := ⟨State.processing, 0, 2, [], [], 0, 0⟩

/-- Environment for the C4 counterexample: the stream ends cleanly
(read-stage progress) while a completed response sits in the result
channel and the write buffer is not full. -/
def c4env : Env Nat Nat Nat Nat Nat :=
  ⟨[PollR.ready (Except.ok ())], [PollR.ready none],
    [PollR.ready (some (Except.ok (InnerMessage.item 9)))],
    [Except.ok ()], [PollR.ready (Except.ok ())]⟩

/-- Counterexample to C4 as stated: a poll from `Processing` in which
the Read stage reports progress resolves without ever running the
Write stage — the `writeRuns` counter stays `0` and the pullable
response in the channel is left unconsumed — because the Rust
`poll_read(cx) || poll_write(cx)` short-circuits; so it is not the
case that each poll runs the Read stage and then the Write stage. -/
theorem processing_skips_write_cex :
    (poll c4d c4env).res = PollR.ready (Except.ok ()) ∧
      (poll_read c4d c4env).2.2 = true ∧
      (poll c4d c4env).d.writeRuns = 0 ∧
      (poll c4d c4env).env.rx = c4env.rx ∧
      c4env.rx ≠ [] ∧ c4d.buf < c4d.cap :=
  ⟨by decide, rfl, rfl, rfl, by decide, by decide⟩

/-- C4 (amended): in state `Processing`, each poll runs the Read
stage, and then the Write stage only when the Read stage reported no
progress (`poll_read(cx) || poll_write(cx)` short-circuits).  If
either stage reports progress, the state has changed to a
non-`Processing` state and the same poll continues immediately with
that state's arm (`resolve_terminal`), without yielding.  The poll
returns `Pending` while remaining in `Processing` exactly when
neither stage reported progress on the current pass. -/
theorem processing_poll_structure :
    ∀ (Req I E EncE DecE : Type) (d : Disp Req I E EncE DecE)
      (env : Env Req I E EncE DecE),
      d.state = State.processing →
      ((poll_read d env).2.2 = true →
        poll d env =
            resolve_terminal (poll_read d env).1 (poll_read d env).2.1 ∧
          (poll d env).d.writeRuns = d.writeRuns ∧
          (poll_read d env).1.state ≠ State.processing) ∧
      ((poll_read d env).2.2 = false →
        (poll_write (poll_read d env).1 (poll_read d env).2.1).2.2.2 =
            true →
          poll d env =
              resolve_terminal
                (poll_write (poll_read d env).1 (poll_read d env).2.1).1
                (poll_write (poll_read d env).1
                  (poll_read d env).2.1).2.1 ∧
            (poll_write (poll_read d env).1
                (poll_read d env).2.1).1.state ≠
              State.processing) ∧
      (((poll d env).res = PollR.pending ∧
          (poll d env).d.state = State.processing) ↔
        ((poll_read d env).2.2 = false ∧
          (poll_write (poll_read d env).1 (poll_read d env).2.1).2.2.2 =
            false)) := by
  intro Req I E EncE DecE d env h
  have hrdstate :
      (poll_read d env).1.state =
        (poll_read_loop env.ready env.items d).d.state := rfl
  have hrdprog :
      (poll_read d env).2.2 =
        (poll_read_loop env.ready env.items d).progress := rfl
  cases hr : (poll_read d env).2.2 with
  | true =>
      have hloopprog :
          (poll_read_loop env.ready env.items d).progress = true := by
        rw [← hrdprog]; exact hr
      have hnotproc : (poll_read d env).1.state ≠ State.processing := by
        rw [hrdstate]
        exact ((poll_read_loop_state env.ready env.items d).2 hloopprog).1
      have hpoll :
          poll d env =
            resolve_terminal (poll_read d env).1 (poll_read d env).2.1 := by
        unfold poll
        rw [h]
        simp [hr]
      refine ⟨fun _ => ⟨hpoll, ?_, hnotproc⟩,
        fun hf => absurd hf (by simp), ?_⟩
      · rw [hpoll,
          (resolve_terminal_preserves (poll_read d env).1
            (poll_read d env).2.1).1]
        exact (poll_read_loop_preserves env.ready env.items d).2.2.2.2
      · constructor
        · intro ⟨hpend, hproc⟩
          exfalso
          rw [hpoll] at hpend hproc
          have := resolve_terminal_pending_state (poll_read d env).1
            (poll_read d env).2.1 hpend
          rw [this] at hproc
          exact hnotproc hproc
        · intro ⟨hf, _⟩
          exact absurd hf (by simp)
  | false =>
      have hloopprog :
          (poll_read_loop env.ready env.items d).progress = false := by
        rw [← hrdprog]; exact hr
      have hrdst : (poll_read d env).1.state = State.processing := by
        rw [hrdstate, (poll_read_loop_state env.ready env.items d).1 hloopprog]
        exact h
      have hwstate :
          (poll_write (poll_read d env).1 (poll_read d env).2.1).1.state =
            (write_outer (poll_read d env).2.1.fl (poll_read d env).2.1.rx
              (poll_read d env).2.1.wr
              { (poll_read d env).1 with
                writeRuns := (poll_read d env).1.writeRuns + 1 }).d.state :=
        rfl
      have hwprog :
          (poll_write (poll_read d env).1 (poll_read d env).2.1).2.2.2 =
            (write_outer (poll_read d env).2.1.fl (poll_read d env).2.1.rx
              (poll_read d env).2.1.wr
              { (poll_read d env).1 with
                writeRuns := (poll_read d env).1.writeRuns + 1 }).progress :=
        rfl
      cases hw :
          (poll_write (poll_read d env).1 (poll_read d env).2.1).2.2.2 with
      | true =>
          have houtprog := hwprog.symm.trans hw
          have hnotproc :
              (poll_write (poll_read d env).1
                (poll_read d env).2.1).1.state ≠ State.processing := by
            rw [hwstate]
            exact
              (write_outer_state (poll_read d env).2.1.fl
                (poll_read d env).2.1.rx (poll_read d env).2.1.wr _).2
                houtprog
          have hpoll :
              poll d env =
                resolve_terminal
                  (poll_write (poll_read d env).1 (poll_read d env).2.1).1
                  (poll_write (poll_read d env).1
                    (poll_read d env).2.1).2.1 := by
            unfold poll
            rw [h]
            simp [hr, hw]
          refine ⟨fun ht => absurd ht (by simp),
            fun _ _ => ⟨hpoll, hnotproc⟩, ?_⟩
          constructor
          · intro ⟨hpend, hproc⟩
            exfalso
            rw [hpoll] at hpend hproc
            have := resolve_terminal_pending_state _ _ hpend
            rw [this] at hproc
            exact hnotproc hproc
          · intro ⟨_, hf⟩
            exact absurd hf (by simp)
      | false =>
          have houtprog := hwprog.symm.trans hw
          have hwst :
              (poll_write (poll_read d env).1
                (poll_read d env).2.1).1.state = State.processing := by
            rw [hwstate,
              (write_outer_state (poll_read d env).2.1.fl
                (poll_read d env).2.1.rx (poll_read d env).2.1.wr _).1
                houtprog]
            exact hrdst
          have hpoll :
              poll d env =
                ⟨PollR.pending,
                  (poll_write (poll_read d env).1 (poll_read d env).2.1).1,
                  (poll_write (poll_read d env).1
                    (poll_read d env).2.1).2.1⟩ := by
            unfold poll
            rw [h]
            simp [hr, hw]
          refine ⟨fun ht => absurd ht (by simp),
            fun _ ht => absurd ht (by simp), ?_⟩
          constructor
          · intro _
            exact ⟨rfl, rfl⟩
          · intro _
            rw [hpoll]
            exact ⟨rfl, hwst⟩

/-- Environment for the C4 witness's no-progress case: everything
pending. -/
def c4penv : Env Nat Nat Nat Nat Nat :=
  ⟨[PollR.pending], [], [PollR.pending], [], []⟩

/-- Witness for C4 (amended): `processing_poll_structure` instantiated
at concrete inputs, once with read-stage progress and once with no
progress at all. -/
theorem processing_poll_structure_witness :
    (poll c4d c4env =
        resolve_terminal (poll_read c4d c4env).1 (poll_read c4d c4env).2.1 ∧
      (poll c4d c4env).d.writeRuns = c4d.writeRuns ∧
      (poll_read c4d c4env).1.state ≠ State.processing) ∧
    (((poll c4d c4penv).res = PollR.pending ∧
        (poll c4d c4penv).d.state = State.processing) ↔
      ((poll_read c4d c4penv).2.2 = false ∧
        (poll_write (poll_read c4d c4penv).1
          (poll_read c4d c4penv).2.1).2.2.2 = false)) :=
  ⟨(processing_poll_structure Nat Nat Nat Nat Nat c4d c4env rfl).1 rfl,
    (processing_poll_structure Nat Nat Nat Nat Nat c4d c4penv rfl).2.2⟩

section NoCloseLemmas

variable {Req I E EncE DecE : Type}

/-- A result-channel script that never delivers `InnerMessage::Close`. -/
def NoCloseRx (rx : List (PollR (Option (Except E (InnerMessage I))))) :
    Prop :=
  ∀ m ∈ rx, m ≠ PollR.ready (some (Except.ok InnerMessage.close))

/-- On a `Close`-free channel script, the write stage's inner loop
never enters `FlushAndStop`, and leaves the channel script
`Close`-free. -/
theorem write_inner_no_close
    (rx : List (PollR (Option (Except E (InnerMessage I))))) :
    ∀ (wr : List (Except EncE Unit)) (d : Disp Req I E EncE DecE),
      NoCloseRx rx → d.state ≠ State.flushAndStop →
      (write_inner rx wr d).d.state ≠ State.flushAndStop ∧
        NoCloseRx (write_inner rx wr d).rx := by
  induction rx with
  | nil =>
      intro wr d hno hst
      exact ⟨by simpa [write_inner] using hst, by simp [write_inner, NoCloseRx]⟩
  | cons m rs ih =>
      intro wr d hno hst
      have hno2 : NoCloseRx rs := fun x hx => hno x (List.mem_cons_of_mem _ hx)
      by_cases hfull : d.cap ≤ d.buf
      · exact ⟨by simpa [write_inner, hfull] using hst,
          by simpa [write_inner, hfull] using hno⟩
      · cases m with
        | pending =>
            exact ⟨by simpa [write_inner, hfull] using hst,
              by simpa [write_inner, hfull] using hno2⟩
        | ready o =>
            cases o with
            | none =>
                exact ⟨by simpa [write_inner, hfull] using hst,
                  by simpa [write_inner, hfull] using hno2⟩
            | some v =>
                cases v with
                | error e =>
                    exact ⟨by simp [write_inner, hfull],
                      by simpa [write_inner, hfull] using hno2⟩
                | ok im =>
                    cases im with
                    | close =>
                        exact absurd rfl (hno _ (List.mem_cons_self _ _))
                    | item msg =>
                        cases wr with
                        | nil =>
                            have := ih []
                              { d with
                                buf := d.buf + 1,
                                written := d.written ++ [msg] } hno2 hst
                            exact ⟨by simpa [write_inner, hfull, takeWr]
                                using this.1,
                              by simpa [write_inner, hfull, takeWr]
                                using this.2⟩
                        | cons w ws =>
                            cases w with
                            | error e =>
                                exact ⟨by simp [write_inner, hfull, takeWr],
                                  by simpa [write_inner, hfull, takeWr]
                                    using hno2⟩
                            | ok u =>
                                have := ih ws
                                  { d with
                                    buf := d.buf + 1,
                                    written := d.written ++ [msg] } hno2 hst
                                exact ⟨by simpa [write_inner, hfull, takeWr]
                                    using this.1,
                                  by simpa [write_inner, hfull, takeWr]
                                    using this.2⟩

/-- On a `Close`-free channel script, the whole write stage never
enters `FlushAndStop`, and leaves the channel script `Close`-free. -/
theorem write_outer_no_close (fl : List (PollR (Except EncE Unit))) :
    ∀ (rx : List (PollR (Option (Except E (InnerMessage I)))))
      (wr : List (Except EncE Unit)) (d : Disp Req I E EncE DecE),
      NoCloseRx rx → d.state ≠ State.flushAndStop →
      (write_outer fl rx wr d).d.state ≠ State.flushAndStop ∧
        NoCloseRx (write_outer fl rx wr d).rx := by
  induction fl with
  | nil =>
      intro rx wr d hno hst
      have hin := write_inner_no_close rx wr d hno hst
      rw [write_outer.eq_def]
      by_cases hp : (write_inner rx wr d).progress
      · simpa [hp] using hin
      · by_cases hb : (write_inner rx wr d).d.buf = 0 <;>
          simpa [hp, hb] using hin
  | cons f fs ih =>
      intro rx wr d hno hst
      have hin := write_inner_no_close rx wr d hno hst
      rw [write_outer.eq_def]
      by_cases hp : (write_inner rx wr d).progress
      · simpa [hp] using hin
      · by_cases hb : (write_inner rx wr d).d.buf = 0
        · simpa [hp, hb] using hin
        · cases f with
          | pending => simpa [hp, hb] using hin
          | ready r =>
              cases r with
              | error e => simpa [hp, hb] using hin.2
              | ok u =>
                  have hrec := ih (write_inner rx wr d).rx
                    (write_inner rx wr d).wr
                    { (write_inner rx wr d).d with
                      buf := 0,
                      flushes := (write_inner rx wr d).d.flushes + 1 }
                    hin.2 hin.1
                  simpa [hp, hb] using hrec

/-- `resolve_terminal` never enters `FlushAndStop` from another
state. -/
theorem resolve_terminal_not_flushAndStop (d : Disp Req I E EncE DecE)
    (env : Env Req I E EncE DecE) (h : d.state ≠ State.flushAndStop) :
    (resolve_terminal d env).d.state ≠ State.flushAndStop := by
  obtain ⟨st, b, cp, ad, wrt, flc, wrn⟩ := d
  obtain ⟨rdy, its, rxs, wrs, fls⟩ := env
  unfold resolve_terminal
  cases st <;> dsimp only <;> try simp
  case error e =>
    by_cases hb : b = 0
    · simp [hb]
    · rcases fls with _ | ⟨f, fs⟩
      · simp [hb]
      · cases f with
        | pending => simp [hb]
        | ready r => cases r <;> simp [hb]
  case flushAndStop => exact absurd rfl h

/-- A poll of a dispatcher that is not in `FlushAndStop`, over a
`Close`-free channel script, does not enter `FlushAndStop` and leaves
the channel script `Close`-free. -/
theorem poll_no_close (d : Disp Req I E EncE DecE)
    (env : Env Req I E EncE DecE) (hno : NoCloseRx env.rx)
    (hst : d.state ≠ State.flushAndStop) :
    (poll d env).d.state ≠ State.flushAndStop ∧
      NoCloseRx (poll d env).env.rx := by
  cases hd : d.state with
  | processing =>
      unfold poll
      rw [hd]
      by_cases hr : (poll_read d env).2.2
      · simp only [hr, if_true]
        have hreadst : (poll_read d env).1.state ≠ State.flushAndStop :=
          ((poll_read_loop_state env.ready env.items d).2
            (by simpa [poll_read] using hr)).2
        refine ⟨resolve_terminal_not_flushAndStop _ _ hreadst, ?_⟩
        have hrx :=
          (resolve_terminal_preserves (poll_read d env).1
            (poll_read d env).2.1).2.2.2.2.2.2.1
        rw [hrx]
        exact hno
      · simp only [hr]
        have hreadst : (poll_read d env).1.state ≠ State.flushAndStop := by
          have hstep : (poll_read d env).1.state =
              (poll_read_loop env.ready env.items d).d.state := rfl
          rw [hstep, (poll_read_loop_state env.ready env.items d).1
            (by simpa [poll_read] using hr)]
          exact hst
        have hw :=
          write_outer_no_close (poll_read d env).2.1.fl
            (poll_read d env).2.1.rx (poll_read d env).2.1.wr
            { (poll_read d env).1 with
              writeRuns := (poll_read d env).1.writeRuns + 1 }
            hno hreadst
        by_cases hwp :
            (poll_write (poll_read d env).1 (poll_read d env).2.1).2.2.2
        · simp only [hwp, if_true, Bool.false_eq_true, if_false]
          refine ⟨resolve_terminal_not_flushAndStop _ _ hw.1, ?_⟩
          have hrx :=
            (resolve_terminal_preserves
              (poll_write (poll_read d env).1 (poll_read d env).2.1).1
              (poll_write (poll_read d env).1
                (poll_read d env).2.1).2.1).2.2.2.2.2.2.1
          rw [hrx]
          exact hw.2
        · simp only [hwp, Bool.false_eq_true, if_false]
          exact hw
  | error e =>
      have : poll d env = resolve_terminal d env := by unfold poll; rw [hd]
      rw [this]
      refine ⟨resolve_terminal_not_flushAndStop d env hst, ?_⟩
      rw [(resolve_terminal_preserves d env).2.2.2.2.2.2.1]
      exact hno
  | framedError e =>
      have : poll d env = resolve_terminal d env := by unfold poll; rw [hd]
      rw [this]
      refine ⟨resolve_terminal_not_flushAndStop d env hst, ?_⟩
      rw [(resolve_terminal_preserves d env).2.2.2.2.2.2.1]
      exact hno
  | flushAndStop => exact absurd hd hst
  | stopping =>
      have : poll d env = resolve_terminal d env := by unfold poll; rw [hd]
      rw [this]
      refine ⟨resolve_terminal_not_flushAndStop d env hst, ?_⟩
      rw [(resolve_terminal_preserves d env).2.2.2.2.2.2.1]
      exact hno

/-- Over a `Close`-free channel script, no run starting outside
`FlushAndStop` ever reaches `FlushAndStop`. -/
theorem run_no_close (fuel : Nat) :
    ∀ (d : Disp Req I E EncE DecE) (env : Env Req I E EncE DecE),
      NoCloseRx env.rx → d.state ≠ State.flushAndStop →
      (run fuel d env).d.state ≠ State.flushAndStop := by
  induction fuel with
  | zero => intro d env _ hst; simpa [run] using hst
  | succ n ih =>
      intro d env hno hst
      have hinv := poll_no_close d env hno hst
      rcases hp : poll d env with ⟨res, d1, env1⟩
      rw [hp] at hinv
      cases res with
      | ready r => rw [run, hp]; exact hinv.1
      | pending => rw [run, hp]; exact ih d1 env1 hinv.2 hinv.1

end NoCloseLemmas

/-- C10: the per-request task body sends `item.map(InnerMessage::Item)`
on the result channel: every sent value is `Ok(InnerMessage::Item _)`
or `Err(service error)`, never `InnerMessage::Close`.  Consequently,
over any channel script whose delivered payloads all come from
`taskSend`, neither the write stage nor any whole run starting outside
`FlushAndStop` ever reaches `FlushAndStop` — the `Close` branch and
the `FlushAndStop` path are unreachable from outcomes this dispatcher's
own tasks deliver. -/
theorem task_send_never_close :
    (∀ (I E : Type) (r : Except E I),
      taskSend r ≠ Except.ok InnerMessage.close) ∧
    (∀ (I E : Type) (r : Except E I),
      (∃ x, taskSend r = Except.ok (InnerMessage.item x)) ∨
        ∃ e, taskSend r = Except.error e) ∧
    (∀ (Req I E EncE DecE : Type) (d : Disp Req I E EncE DecE)
      (env : Env Req I E EncE DecE),
      (∀ v, PollR.ready (some v) ∈ env.rx →
        ∃ o : Except E I, v = taskSend o) →
      d.state ≠ State.flushAndStop →
      (poll_write d env).1.state ≠ State.flushAndStop ∧
        ∀ fuel, (run fuel d env).d.state ≠ State.flushAndStop) := by
  refine ⟨?_, ?_, ?_⟩
  · intro I E r
    cases r <;> simp [taskSend, Except.map]
  · intro I E r
    cases r with
    | error e => exact Or.inr ⟨e, rfl⟩
    | ok a => exact Or.inl ⟨a, rfl⟩
  · intro Req I E EncE DecE d env hv hst
    have hno : NoCloseRx env.rx := by
      intro m hm heq
      subst heq
      obtain ⟨o, ho⟩ := hv _ hm
      cases o <;> simp [taskSend, Except.map] at ho
    refine ⟨?_, fun fuel => run_no_close fuel d env hno hst⟩
    have hw :=
      write_outer_no_close env.fl env.rx env.wr
        { d with writeRuns := d.writeRuns + 1 } hno hst
    exact hw.1

/-- Concrete inputs for the C10 witness: a channel script delivering a
response and a service error, both through `taskSend`. -/
def c10env : Env Nat Nat Nat Nat Nat :=
  ⟨[], [],
    [PollR.ready (some (taskSend (Except.ok 5))),
      PollR.ready (some (taskSend (Except.error 6)))],
    [Except.ok ()], [PollR.pending]⟩

/-- Witness for C10: `task_send_never_close` instantiated at concrete
inputs. -/
theorem task_send_never_close_witness :
    taskSend (Except.ok (5 : Nat)) ≠
        (Except.ok InnerMessage.close : Except Nat (InnerMessage Nat)) ∧
      ((∃ x, taskSend (Except.ok (5 : Nat)) =
          (Except.ok (InnerMessage.item x) :
            Except Nat (InnerMessage Nat))) ∨
        ∃ e, taskSend (Except.ok (5 : Nat)) =
          (Except.error e : Except Nat (InnerMessage Nat))) ∧
      (poll_write c4d c10env).1.state ≠ State.flushAndStop ∧
      (run 2 c4d c10env).d.state ≠ State.flushAndStop := by
  have h3 := task_send_never_close.2.2 Nat Nat Nat Nat Nat c4d c10env
    (by
      intro v hm
      simp only [c10env, List.mem_cons, List.not_mem_nil, or_false,
        PollR.ready.injEq, Option.some.injEq] at hm
      rcases hm with hm | hm
      · exact ⟨Except.ok 5, hm⟩
      · exact ⟨Except.error 6, hm⟩)
    (by simp [c4d])
  exact ⟨task_send_never_close.1 Nat Nat (Except.ok 5),
    task_send_never_close.2.1 Nat Nat (Except.ok 5), h3.1, h3.2 2⟩

section TraceLemmas

variable {Req I E EncE DecE : Type}

/-- Consistency of a write-stage event trace: each entry's recorded
before-buffer matches the running buffer value, starting from `b0`
and ending at `b1`. -/
def TraceOk : Nat → List WEntry → Nat → Prop
  | b0, [], b1 => b0 = b1
  | b0, en :: t, b1 => en.bufBefore = b0 ∧ TraceOk en.bufAfter t b1

theorem traceOk_append {t1 : List WEntry} :
    ∀ {t2 : List WEntry} {b0 bm b1 : Nat},
      TraceOk b0 t1 bm → TraceOk bm t2 b1 → TraceOk b0 (t1 ++ t2) b1 := by
  induction t1 with
  | nil =>
      intro t2 b0 bm b1 h1 h2
      have hb : b0 = bm := h1
      subst hb
      exact h2
  | cons en t ih =>
      intro t2 b0 bm b1 h1 h2
      exact ⟨h1.1, ih h1.2 h2⟩

theorem traceOk_split (t1 : List WEntry) :
    ∀ {t2 : List WEntry} {b0 b1 : Nat},
      TraceOk b0 (t1 ++ t2) b1 →
      ∃ bm, TraceOk b0 t1 bm ∧ TraceOk bm t2 b1 := by
  induction t1 with
  | nil => intro t2 b0 b1 h; exact ⟨b0, rfl, h⟩
  | cons en t ih =>
      intro t2 b0 b1 h
      obtain ⟨bm, h1, h2⟩ := ih h.2
      exact ⟨bm, ⟨h.1, h1⟩, h2⟩

/-- On a consistent trace whose only buffer-decreasing events are
flush successes, a stretch without a flush success never decreases
the buffer. -/
theorem traceOk_mono (t : List WEntry) :
    ∀ {b0 b1 : Nat}, TraceOk b0 t b1 →
      (∀ en ∈ t, en.bufAfter < en.bufBefore → en.ev = WK.flushOk) →
      (∀ en ∈ t, en.ev ≠ WK.flushOk) → b0 ≤ b1 := by
  induction t with
  | nil =>
      intro b0 b1 h _ _
      exact Nat.le_of_eq h
  | cons en t ih =>
      intro b0 b1 h hdec hno
      have h1 : en.bufBefore ≤ en.bufAfter := by
        by_contra hlt
        exact hno en (List.mem_cons_self _ _)
          (hdec en (List.mem_cons_self _ _) (Nat.lt_of_not_le hlt))
      have h2 : en.bufAfter ≤ b1 :=
        ih h.2 (fun x hx => hdec x (List.mem_cons_of_mem _ hx))
          (fun x hx => hno x (List.mem_cons_of_mem _ hx))
      have h0 : en.bufBefore = b0 := h.1
      omega

/-- Trace properties of the write stage's inner loop: the capacity is
unchanged, the trace is consistent from the entry buffer to the exit
buffer, every pull is recorded with a non-full buffer, and no event
decreases the buffer. -/
theorem write_inner_trace
    (rx : List (PollR (Option (Except E (InnerMessage I))))) :
    ∀ (wr : List (Except EncE Unit)) (d : Disp Req I E EncE DecE),
      (write_inner rx wr d).d.cap = d.cap ∧
        TraceOk d.buf (write_inner rx wr d).trace
          (write_inner rx wr d).d.buf ∧
        (∀ en ∈ (write_inner rx wr d).trace, en.ev = WK.pull →
          en.bufBefore < d.cap) ∧
        (∀ en ∈ (write_inner rx wr d).trace,
          en.bufBefore ≤ en.bufAfter) := by
  induction rx with
  | nil => intro wr d; simp [write_inner, TraceOk]
  | cons m rs ih =>
      intro wr d
      by_cases hfull : d.cap ≤ d.buf
      · simp [write_inner, hfull, TraceOk]
      · cases m with
        | pending => simp [write_inner, hfull, TraceOk]
        | ready o =>
            cases o with
            | none => simp [write_inner, hfull, TraceOk]
            | some v =>
                cases v with
                | error e =>
                    refine ⟨by simp [write_inner, hfull], ?_, ?_, ?_⟩
                    · simp [write_inner, hfull, TraceOk]
                    · intro en hen _
                      simp [write_inner, hfull] at hen
                      subst hen
                      simpa using Nat.lt_of_not_le hfull
                    · intro en hen
                      simp [write_inner, hfull] at hen
                      subst hen
                      simp
                | ok im =>
                    cases im with
                    | close =>
                        refine ⟨by simp [write_inner, hfull], ?_, ?_, ?_⟩
                        · simp [write_inner, hfull, TraceOk]
                        · intro en hen _
                          simp [write_inner, hfull] at hen
                          subst hen
                          simpa using Nat.lt_of_not_le hfull
                        · intro en hen
                          simp [write_inner, hfull] at hen
                          subst hen
                          simp
                    | item msg =>
                        cases wr with
                        | nil =>
                            have hrec := ih []
                              { d with
                                buf := d.buf + 1,
                                written := d.written ++ [msg] }
                            refine ⟨by simpa [write_inner, hfull, takeWr]
                                using hrec.1, ?_, ?_, ?_⟩
                            · simpa [write_inner, hfull, takeWr, TraceOk]
                                using hrec.2.1
                            · intro en hen hev
                              simp [write_inner, hfull, takeWr] at hen
                              rcases hen with hen | hen | hen
                              · subst hen
                                simpa using Nat.lt_of_not_le hfull
                              · subst hen
                                simp at hev
                              · exact hrec.2.2.1 en hen hev
                            · intro en hen
                              simp [write_inner, hfull, takeWr] at hen
                              rcases hen with hen | hen | hen
                              · subst hen; simp
                              · subst hen; simp
                              · exact hrec.2.2.2 en hen
                        | cons w ws =>
                            cases w with
                            | error e =>
                                refine ⟨by simp [write_inner, hfull, takeWr],
                                  ?_, ?_, ?_⟩
                                · simp [write_inner, hfull, takeWr, TraceOk]
                                · intro en hen _
                                  simp [write_inner, hfull, takeWr] at hen
                                  subst hen
                                  simpa using Nat.lt_of_not_le hfull
                                · intro en hen
                                  simp [write_inner, hfull, takeWr] at hen
                                  subst hen
                                  simp
                            | ok u =>
                                have hrec := ih ws
                                  { d with
                                    buf := d.buf + 1,
                                    written := d.written ++ [msg] }
                                refine ⟨by simpa [write_inner, hfull, takeWr]
                                    using hrec.1, ?_, ?_, ?_⟩
                                · simpa [write_inner, hfull, takeWr, TraceOk]
                                    using hrec.2.1
                                · intro en hen hev
                                  simp [write_inner, hfull, takeWr] at hen
                                  rcases hen with hen | hen | hen
                                  · subst hen
                                    simpa using Nat.lt_of_not_le hfull
                                  · subst hen
                                    simp at hev
                                  · exact hrec.2.2.1 en hen hev
                                · intro en hen
                                  simp [write_inner, hfull, takeWr] at hen
                                  rcases hen with hen | hen | hen
                                  · subst hen; simp
                                  · subst hen; simp
                                  · exact hrec.2.2.2 en hen

/-- Trace properties of the whole write stage: capacity unchanged,
consistent trace, every pull recorded with a non-full buffer, and
flush success is the only buffer-decreasing event. -/
theorem write_outer_trace (fl : List (PollR (Except EncE Unit))) :
    ∀ (rx : List (PollR (Option (Except E (InnerMessage I)))))
      (wr : List (Except EncE Unit)) (d : Disp Req I E EncE DecE),
      (write_outer fl rx wr d).d.cap = d.cap ∧
        TraceOk d.buf (write_outer fl rx wr d).trace
          (write_outer fl rx wr d).d.buf ∧
        (∀ en ∈ (write_outer fl rx wr d).trace, en.ev = WK.pull →
          en.bufBefore < d.cap) ∧
        (∀ en ∈ (write_outer fl rx wr d).trace,
          en.bufAfter < en.bufBefore → en.ev = WK.flushOk) := by
  induction fl with
  | nil =>
      intro rx wr d
      have hin := write_inner_trace rx wr d
      rw [write_outer.eq_def]
      by_cases hp : (write_inner rx wr d).progress
      · refine ⟨by simpa [hp] using hin.1, by simpa [hp] using hin.2.1,
          ?_, ?_⟩
        · intro en hen hev
          simp only [hp, if_true] at hen
          exact hin.2.2.1 en hen hev
        · intro en hen hlt
          simp only [hp, if_true] at hen
          exact absurd hlt (Nat.not_lt.mpr (hin.2.2.2 en hen))
      · by_cases hb : (write_inner rx wr d).d.buf = 0
        · refine ⟨by simpa [hp, hb] using hin.1,
            by simpa [hp, hb] using hin.2.1, ?_, ?_⟩
          · intro en hen hev
            simp only [hp, hb, Bool.false_eq_true, if_false, if_true] at hen
            exact hin.2.2.1 en hen hev
          · intro en hen hlt
            simp only [hp, hb, Bool.false_eq_true, if_false, if_true] at hen
            exact absurd hlt (Nat.not_lt.mpr (hin.2.2.2 en hen))
        · refine ⟨by simpa [hp, hb] using hin.1, ?_, ?_, ?_⟩
          · have happ :
                TraceOk d.buf
                  ((write_inner rx wr d).trace ++
                    [⟨WK.flushPending, (write_inner rx wr d).d.buf,
                      (write_inner rx wr d).d.buf⟩])
                  (write_inner rx wr d).d.buf :=
              traceOk_append hin.2.1 ⟨rfl, rfl⟩
            simpa [hp, hb] using happ
          · intro en hen hev
            simp only [hp, hb, Bool.false_eq_true, if_false,
              List.mem_append, List.mem_cons, List.not_mem_nil,
              or_false] at hen
            rcases hen with hen | hen
            · exact hin.2.2.1 en hen hev
            · subst hen
              simp at hev
          · intro en hen hlt
            simp only [hp, hb, Bool.false_eq_true, if_false,
              List.mem_append, List.mem_cons, List.not_mem_nil,
              or_false] at hen
            rcases hen with hen | hen
            · exact absurd hlt (Nat.not_lt.mpr (hin.2.2.2 en hen))
            · subst hen
              simp at hlt
  | cons f fs ih =>
      intro rx wr d
      have hin := write_inner_trace rx wr d
      rw [write_outer.eq_def]
      by_cases hp : (write_inner rx wr d).progress
      · refine ⟨by simpa [hp] using hin.1, by simpa [hp] using hin.2.1,
          ?_, ?_⟩
        · intro en hen hev
          simp only [hp, if_true] at hen
          exact hin.2.2.1 en hen hev
        · intro en hen hlt
          simp only [hp, if_true] at hen
          exact absurd hlt (Nat.not_lt.mpr (hin.2.2.2 en hen))
      · by_cases hb : (write_inner rx wr d).d.buf = 0
        · refine ⟨by simpa [hp, hb] using hin.1,
            by simpa [hp, hb] using hin.2.1, ?_, ?_⟩
          · intro en hen hev
            simp only [hp, hb, Bool.false_eq_true, if_false, if_true] at hen
            exact hin.2.2.1 en hen hev
          · intro en hen hlt
            simp only [hp, hb, Bool.false_eq_true, if_false, if_true] at hen
            exact absurd hlt (Nat.not_lt.mpr (hin.2.2.2 en hen))
        · cases f with
          | pending =>
              refine ⟨by simpa [hp, hb] using hin.1, ?_, ?_, ?_⟩
              · have happ :
                    TraceOk d.buf
                      ((write_inner rx wr d).trace ++
                        [⟨WK.flushPending, (write_inner rx wr d).d.buf,
                          (write_inner rx wr d).d.buf⟩])
                      (write_inner rx wr d).d.buf :=
                  traceOk_append hin.2.1 ⟨rfl, rfl⟩
                simpa [hp, hb] using happ
              · intro en hen hev
                simp only [hp, hb, Bool.false_eq_true, if_false,
                  List.mem_append, List.mem_cons, List.not_mem_nil,
                  or_false] at hen
                rcases hen with hen | hen
                · exact hin.2.2.1 en hen hev
                · subst hen
                  simp at hev
              · intro en hen hlt
                simp only [hp, hb, Bool.false_eq_true, if_false,
                  List.mem_append, List.mem_cons, List.not_mem_nil,
                  or_false] at hen
                rcases hen with hen | hen
                · exact absurd hlt (Nat.not_lt.mpr (hin.2.2.2 en hen))
                · subst hen
                  simp at hlt
          | ready r =>
              cases r with
              | error e =>
                  refine ⟨by simpa [hp, hb] using hin.1, ?_, ?_, ?_⟩
                  · have happ :
                        TraceOk d.buf
                          ((write_inner rx wr d).trace ++
                            [⟨WK.flushErr, (write_inner rx wr d).d.buf,
                              (write_inner rx wr d).d.buf⟩])
                          (write_inner rx wr d).d.buf :=
                      traceOk_append hin.2.1 ⟨rfl, rfl⟩
                    simpa [hp, hb] using happ
                  · intro en hen hev
                    simp only [hp, hb, Bool.false_eq_true, if_false,
                      List.mem_append, List.mem_cons, List.not_mem_nil,
                      or_false] at hen
                    rcases hen with hen | hen
                    · exact hin.2.2.1 en hen hev
                    · subst hen
                      simp at hev
                  · intro en hen hlt
                    simp only [hp, hb, Bool.false_eq_true, if_false,
                      List.mem_append, List.mem_cons, List.not_mem_nil,
                      or_false] at hen
                    rcases hen with hen | hen
                    · exact absurd hlt (Nat.not_lt.mpr (hin.2.2.2 en hen))
                    · subst hen
                      simp at hlt
              | ok u =>
                  have hrec := ih (write_inner rx wr d).rx
                    (write_inner rx wr d).wr
                    { (write_inner rx wr d).d with
                      buf := 0,
                      flushes := (write_inner rx wr d).d.flushes + 1 }
                  refine ⟨?_, ?_, ?_, ?_⟩
                  · have : ((write_outer fs (write_inner rx wr d).rx
                        (write_inner rx wr d).wr
                        { (write_inner rx wr d).d with
                          buf := 0,
                          flushes :=
                            (write_inner rx wr d).d.flushes + 1 }).d.cap :
                        Nat) = d.cap := hrec.1.trans hin.1
                    simpa [hp, hb] using this
                  · have happ :
                        TraceOk d.buf
                          ((write_inner rx wr d).trace ++
                            ⟨WK.flushOk, (write_inner rx wr d).d.buf, 0⟩ ::
                              (write_outer fs (write_inner rx wr d).rx
                                (write_inner rx wr d).wr
                                { (write_inner rx wr d).d with
                                  buf := 0,
                                  flushes :=
                                    (write_inner rx wr d).d.flushes +
                                      1 }).trace)
                          (write_outer fs (write_inner rx wr d).rx
                            (write_inner rx wr d).wr
                            { (write_inner rx wr d).d with
                              buf := 0,
                              flushes :=
                                (write_inner rx wr d).d.flushes +
                                  1 }).d.buf :=
                      traceOk_append hin.2.1 ⟨rfl, hrec.2.1⟩
                    simpa [hp, hb] using happ
                  · intro en hen hev
                    simp only [hp, hb, Bool.false_eq_true, if_false,
                      List.mem_append, List.mem_cons] at hen
                    rcases hen with hen | hen | hen
                    · exact hin.2.2.1 en hen hev
                    · subst hen
                      simp at hev
                    · exact Nat.lt_of_lt_of_eq (hrec.2.2.1 en hen hev)
                        hin.1
                  · intro en hen hlt
                    simp only [hp, hb, Bool.false_eq_true, if_false,
                      List.mem_append, List.mem_cons] at hen
                    rcases hen with hen | hen | hen
                    · exact absurd hlt (Nat.not_lt.mpr (hin.2.2.2 en hen))
                    · subst hen
                      rfl
                    · exact hrec.2.2.2 en hen hlt

end TraceLemmas

/-- C5: backpressure invariant of the write stage.  The write-stage
event trace of any `poll_write` invocation is consistent
(`TraceOk`); every outcome pulled from the result channel is pulled
with a non-full write buffer (`bufBefore < cap`); a successful flush
is the only event that shrinks the buffer; and consequently, whenever
the trace reaches a point where the buffer is full, no later pull
happens until a flush success has drained it. -/
theorem write_backpressure :
    ∀ (Req I E EncE DecE : Type) (d : Disp Req I E EncE DecE)
      (env : Env Req I E EncE DecE),
      TraceOk d.buf (poll_write d env).2.2.1 (poll_write d env).1.buf ∧
        (∀ en ∈ (poll_write d env).2.2.1, en.ev = WK.pull →
          en.bufBefore < d.cap) ∧
        (∀ en ∈ (poll_write d env).2.2.1,
          en.bufAfter < en.bufBefore → en.ev = WK.flushOk) ∧
        (∀ (t1 : List WEntry) (en1 : WEntry) (t2 : List WEntry)
          (en2 : WEntry) (t3 : List WEntry),
          (poll_write d env).2.2.1 = t1 ++ en1 :: t2 ++ en2 :: t3 →
          d.cap ≤ en1.bufBefore → en2.ev = WK.pull →
          ∃ en ∈ en1 :: t2, en.ev = WK.flushOk) := by
  intro Req I E EncE DecE d env
  have houter :=
    write_outer_trace env.fl env.rx env.wr
      { d with writeRuns := d.writeRuns + 1 }
  have h1 : TraceOk d.buf (poll_write d env).2.2.1
      (poll_write d env).1.buf := houter.2.1
  have h2 : ∀ en ∈ (poll_write d env).2.2.1, en.ev = WK.pull →
      en.bufBefore < d.cap := houter.2.2.1
  have h3 : ∀ en ∈ (poll_write d env).2.2.1,
      en.bufAfter < en.bufBefore → en.ev = WK.flushOk := houter.2.2.2
  refine ⟨h1, h2, h3, ?_⟩
  intro t1 en1 t2 en2 t3 ht hcap hev
  by_contra hno
  push_neg at hno
  have hsub : ∀ en ∈ en1 :: t2, en ∈ (poll_write d env).2.2.1 := by
    intro en hen
    rw [ht]
    rcases List.mem_cons.mp hen with hen | hen
    · subst hen
      simp
    · simp [hen]
  have hmem2 : en2 ∈ (poll_write d env).2.2.1 := by
    rw [ht]
    simp
  rw [ht] at h1
  rw [List.append_assoc, List.cons_append] at h1
  obtain ⟨bm, -, hrest⟩ := traceOk_split t1 h1
  have hb1 : en1.bufBefore = bm := hrest.1
  obtain ⟨bk, hmid, hlast⟩ := traceOk_split t2 hrest.2
  have hb2 : en2.bufBefore = bk := hlast.1
  have hT : TraceOk en1.bufAfter t2 bk := hmid
  have hTfull : TraceOk bm (en1 :: t2) bk := ⟨hb1, hT⟩
  have hmono : bm ≤ bk :=
    traceOk_mono (en1 :: t2) hTfull
      (fun en hen hlt => h3 en (hsub en hen) hlt) hno
  have hp2 : en2.bufBefore < d.cap := h2 en2 hmem2 hev
  omega

/-- Concrete inputs for the C5 witness: capacity 1, two completed
responses in the channel, flushes succeeding. -/
def c5d : Disp Nat Nat Nat Nat Nat := ⟨State.processing, 0, 1, [], [], 0, 0⟩

/-- Environment for the C5 witness. -/
def c5env : Env Nat Nat Nat Nat Nat :=
  ⟨[], [],
    [PollR.ready (some (Except.ok (InnerMessage.item 11))),
      PollR.ready (some (Except.ok (InnerMessage.item 12))), PollR.pending],
    [Except.ok (), Except.ok ()],
    [PollR.ready (Except.ok ()), PollR.ready (Except.ok ())]⟩

/-- Witness for C5: `write_backpressure` instantiated at concrete
inputs, with a concrete trace split around a full-buffer event. -/
theorem write_backpressure_witness :
    ∃ en ∈ [(⟨WK.flushOk, 1, 0⟩ : WEntry)], en.ev = WK.flushOk :=
  (write_backpressure Nat Nat Nat Nat Nat c5d c5env).2.2.2
    [⟨WK.pull, 0, 0⟩, ⟨WK.wrote, 0, 1⟩] ⟨WK.flushOk, 1, 0⟩ []
    ⟨WK.pull, 0, 0⟩ [⟨WK.wrote, 0, 1⟩, ⟨WK.flushOk, 1, 0⟩]
    (by decide) (by decide) rfl

end ActixWs
